import Mathlib

/-!
# Triangle solver (`src/app.js`): solving and validation engine

A shallow embedding of the pure solving functions of `src/app.js`
(`normalizeAngles`, `computeSides`, `solveFromAngles`, `solveFromPoints` and
their helpers) together with theorems about them.

Numbers are the elements of a linearly ordered field `α`: `ℚ` for evaluation,
`ℝ` for the trigonometric statements.  A JavaScript value that may be `null` is
an `Option`.  The built-in `Math` functions the program calls are passed as a
record `JSMath α`.

Each numeric function is embedded twice.  The plain version (`normalizeAngles`,
`computeSides`, `solveFromPoints`, ...) computes in exact arithmetic.  The
version with the suffix `Fl` takes the rounding `fl` applied to the result of
every `+`, `-`, `*` and `/` (and, for `computeSides`, the test `finite` behind
`Number.isFinite`), so that a theorem proved for every `fl` holds of the program
on doubles; `fl = id` gives the plain version back.  `roundDouble` is the IEEE 754
binary64 rounding itself and `doubleMath` the `Math` object on doubles; they are
used for the concrete double evaluations.
-/

namespace TriangleSolver

/-! ## Data model -/

/-- The closed vocabulary of field keys (`FIELD_KEYS`, `src/app.js` line 17). -/
inductive FieldKey where
  | A | B | C | Aext | Bext | Cext | a | b | c
  deriving DecidableEq, Repr

/-- Source: `const FIELD_KEYS = ['A', 'B', 'C', 'Aext', 'Bext', 'Cext', 'a', 'b', 'c']`. -/
def FIELD_KEYS : List FieldKey :=
  [.A, .B, .C, .Aext, .Bext, .Cext, .a, .b, .c]

/-- The JavaScript string of a key, as spliced into the reasons. -/
def FieldKey.name : FieldKey → String
  | .A => "A" | .B => "B" | .C => "C"
  | .Aext => "Aext" | .Bext => "Bext" | .Cext => "Cext"
  | .a => "a" | .b => "b" | .c => "c"

/-- The record built by `readAngleInputs`: nine numbers, each possibly `null`. -/
structure Inputs (α : Type) where
  A : Option α
  B : Option α
  C : Option α
  Aext : Option α
  Bext : Option α
  Cext : Option α
  a : Option α
  b : Option α
  c : Option α
  deriving DecidableEq, Repr

/-- Property access `inputs[key]`. -/
def Inputs.get {α : Type} (inputs : Inputs α) : FieldKey → Option α
  | .A => inputs.A | .B => inputs.B | .C => inputs.C
  | .Aext => inputs.Aext | .Bext => inputs.Bext | .Cext => inputs.Cext
  | .a => inputs.a | .b => inputs.b | .c => inputs.c

/-- The object `{ A, B, C }` of interior angles in degrees, each possibly `null`. -/
structure AngleSet (α : Type) where
  A : Option α
  B : Option α
  C : Option α
  deriving DecidableEq, Repr

/-- Property access `angles[key]` (`undefined` for a key the object lacks). -/
def AngleSet.get {α : Type} (angles : AngleSet α) : FieldKey → Option α
  | .A => angles.A | .B => angles.B | .C => angles.C
  | _ => none

/-- Assignment `angles[key] = value` for the three keys the loop of
`normalizeAngles` ranges over. -/
def AngleSet.set {α : Type} (angles : AngleSet α) (key : FieldKey) (value : Option α) :
    AngleSet α :=
  match key with
  | .A => { angles with A := value }
  | .B => { angles with B := value }
  | .C => { angles with C := value }
  | _ => angles

/-- The built-in `Math` members used by the solver. `Math.PI` is a positive constant. -/
structure JSMath (α : Type) [LinearOrderedField α] where
  sin : α → α
  acos : α → α
  hypot : α → α → α
  PI : α
  PI_pos : 0 < PI

section Generic

variable {α : Type} [LinearOrderedField α]

/-- Source: `const EPS = 0.5; // tolerance in degrees`. -/
def EPS : α := 1 / 2

/-- Numeric coercion of a possibly-`null` value: `null` counts as `0`
(`angles.A || 0`, `null <= 0`, `null * Math.PI`). -/
def orZero (value : Option α) : α :=
  match value with
  | some v => v
  | none => 0

/-- Source: `function approxEqual(a, b, tol) { return Math.abs(a - b) <= tol; }`. -/
def approxEqual (a b tol : α) : Bool :=
  decide (|a - b| ≤ tol)

/-- Source: `function isAngleValid(angle)`: `angle != null && angle > 0 && angle < 180`. -/
def isAngleValid (angle : Option α) : Bool :=
  match angle with
  | some v => decide (0 < v) && decide (v < 180)
  | none => false

/-! ## `normalizeAngles` (lines 439-493) -/

/-- What `normalizeAngles` returns: `{status: 'bad', reason}`,
`{status: 'na', angles, reason}` or `{status: 'ok', angles, reason}`. -/
inductive NormResult (α : Type) where
  | bad (reason : String)
  | na (angles : AngleSet α) (reason : String)
  | ok (angles : AngleSet α) (reason : String)
  deriving DecidableEq, Repr

/-- The `checks` array: each interior key with its exterior key. -/
def checks : List (FieldKey × FieldKey) :=
  [(.A, .Aext), (.B, .Bext), (.C, .Cext)]

/-- The test `interior != null && exterior != null &&
!approxEqual(interior + exterior, 180, EPS)`. -/
def pairMismatch (interior exterior : Option α) : Bool :=
  match interior, exterior with
  | some i, some e => !approxEqual (i + e) 180 EPS
  | _, _ => false

/-- Source: `let value = interior; if (value == null && exterior != null) value = 180 - exterior;`. -/
def workingValue (interior exterior : Option α) : Option α :=
  match interior, exterior with
  | some i, _ => some i
  | none, some e => some (180 - e)
  | none, none => none

/-- The test `value != null && (!isFinite(value) || value <= 0 || value >= 180)`;
every element of `α` is finite. -/
def valueInvalid (value : Option α) : Bool :=
  match value with
  | some v => decide (v ≤ 0) || decide (180 ≤ v)
  | none => false

/-- The template literal `Interior and exterior for ${pair.key} do not sum to 180.`. -/
def mismatchReason (key : FieldKey) : String :=
  "Interior and exterior for " ++ key.name ++ " do not sum to 180."

/-- The template literal `Angle ${pair.key} is not valid.`. -/
def invalidReason (key : FieldKey) : String :=
  "Angle " ++ key.name ++ " is not valid."

/-- One iteration of the `for (const pair of checks)` loop: an early `return`
of `{status: 'bad', reason}` is `Except.error reason`. -/
def normalizeStep (inputs : Inputs α) (angles : AngleSet α) (pair : FieldKey × FieldKey) :
    Except String (AngleSet α) :=
  let interior := inputs.get pair.1
  let exterior := inputs.get pair.2
  if pairMismatch interior exterior then
    .error (mismatchReason pair.1)
  else
    let value := workingValue interior exterior
    if valueInvalid value then
      .error (invalidReason pair.1)
    else
      .ok (angles.set pair.1 value)

/-- The whole `for` loop of `normalizeAngles`, started from
`{ A: null, B: null, C: null }`. -/
def normalizeLoop (inputs : Inputs α) : Except String (AngleSet α) :=
  checks.foldlM (normalizeStep inputs) ⟨none, none, none⟩

/-- Source: `['A', 'B', 'C'].filter((k) => angles[k] != null).length`. -/
def knownCount (angles : AngleSet α) : Nat :=
  ([FieldKey.A, .B, .C].filter (fun k => (angles.get k).isSome)).length

/-- The three assignments `if (angles.X == null) angles.X = missing;`. -/
def fillMissing (angles : AngleSet α) (missing : α) : AngleSet α :=
  let angles := if angles.A.isNone then { angles with A := some missing } else angles
  let angles := if angles.B.isNone then { angles with B := some missing } else angles
  let angles := if angles.C.isNone then { angles with C := some missing } else angles
  angles

/-- Source: `function normalizeAngles(inputs)`. -/
def normalizeAngles (inputs : Inputs α) : NormResult α :=
  match normalizeLoop inputs with
  | .error reason => .bad reason
  | .ok angles =>
    let known := knownCount angles
    let sumKnown := orZero angles.A + orZero angles.B + orZero angles.C
    if known < 2 then
      .na angles "Need at least two angles to solve."
    else if known = 2 then
      let missing := 180 - sumKnown
      if missing ≤ 0 ∨ 180 ≤ missing then
        .bad "Angles do not form a valid triangle."
      else
        .ok (fillMissing angles missing) ""
    else if !approxEqual sumKnown 180 EPS then
      .bad "Angles do not sum to 180 degrees."
    else
      .ok angles ""

/-! ## `computeSides` (lines 495-532) -/

/-- The object `{ a: k * sinA, b: k * sinB, c: k * sinC }`. -/
structure Sides (α : Type) where
  a : α
  b : α
  c : α
  deriving DecidableEq, Repr

/-- What `computeSides` returns: `{status: 'na', reason}`, `{status: 'bad', reason}`
or `{status: 'ok', sides}`. -/
inductive SideResult (α : Type) where
  | na (reason : String)
  | bad (reason : String)
  | ok (sides : Sides α)
  deriving DecidableEq, Repr

/-- Source: `function degToRad(deg) { return (deg * Math.PI) / 180; }`. -/
def degToRad (m : JSMath α) (deg : α) : α :=
  (deg * m.PI) / 180

/-- JavaScript division of finite numbers in exact arithmetic, as far as
`Number.isFinite` can tell: a zero divisor gives `Infinity`, `-Infinity` or `NaN`, which is
`none` here. An exact quotient never overflows; `jsDivFl` is the version with rounding and
overflow. -/
def jsDiv (x y : α) : Option α :=
  if y = 0 then none else some (x / y)

/-- Source: `['a', 'b', 'c'].find((k) => sides[k] != null)` on `sides = { a: inputs.a,
b: inputs.b, c: inputs.c }`. -/
def providedSide (inputs : Inputs α) : Option FieldKey :=
  [FieldKey.a, .b, .c].find? (fun k => (inputs.get k).isSome)

/-- Source: `function computeSides(inputs, angles)`. The scale `k` starts as `null`; `null` and a
non-finite quotient both fail `Number.isFinite(k)` and are `none`. -/
def computeSides (m : JSMath α) (inputs : Inputs α) (angles : AngleSet α) : SideResult α :=
  match providedSide inputs with
  | none => .na "Provide one side length to compute sides."
  | some provided =>
    if orZero (inputs.get provided) ≤ 0 then
      .bad "Side length must be greater than zero."
    else
      let A := degToRad m (orZero angles.A)
      let B := degToRad m (orZero angles.B)
      let C := degToRad m (orZero angles.C)
      let sinA := m.sin A
      let sinB := m.sin B
      let sinC := m.sin C
      let k : Option α := none
      let k := if provided = .a then jsDiv (orZero inputs.a) sinA else k
      let k := if provided = .b then jsDiv (orZero inputs.b) sinB else k
      let k := if provided = .c then jsDiv (orZero inputs.c) sinC else k
      match k with
      | none => .bad "Cannot compute side lengths with given values."
      | some k => .ok { a := k * sinA, b := k * sinB, c := k * sinC }

/-! ## Results (lines 289-303) -/

/-- One entry of `fields`: `{ status, value, reason }`; `reason` is absent on a value. -/
structure Field (α : Type) where
  status : String
  value : Option α
  reason : Option String
  deriving DecidableEq, Repr

/-- The `fields` object: a key is absent (`none`) until it is assigned. -/
abbrev Fields (α : Type) := FieldKey → Option (Field α)

/-- The assignment `fields[key] = field`. -/
def Fields.set {α : Type} (fields : Fields α) (key : FieldKey) (field : Field α) : Fields α :=
  fun k => if k = key then some field else fields k

/-- The object `{ fields, status, statusReason, previewAngles }`. -/
structure SolveResult (α : Type) where
  fields : Fields α
  status : String
  statusReason : String
  previewAngles : Option (AngleSet α)

/-- Source: `function makeAllNA(reason)`. -/
def makeAllNA (reason : String) : SolveResult α :=
  { fields := FIELD_KEYS.foldl
      (fun fields key => fields.set key { status := "na", value := none, reason := some reason })
      (fun _ => none)
    status := "N.A."
    statusReason := reason
    previewAngles := none }

/-- Source: `function makeAllBad(reason)`. -/
def makeAllBad (reason : String) : SolveResult α :=
  { fields := FIELD_KEYS.foldl
      (fun fields key => fields.set key { status := "bad", value := none, reason := some reason })
      (fun _ => none)
    status := "Bad value"
    statusReason := reason
    previewAngles := none }

/-- The entry `{ status: 'value', value }`. -/
def Field.ofValue (value : α) : Field α :=
  { status := "value", value := some value, reason := none }

/-- The entry `{ status: 'na', value: null, reason }`. -/
def Field.ofNA (reason : String) : Field α :=
  { status := "na", value := none, reason := some reason }

/-! ## `solveFromAngles` (lines 377-437) -/

/-- Source: `Object.values(fields).some((field) => field.status === 'value')`. -/
def anyValue (fields : Fields α) : Bool :=
  (FIELD_KEYS.filterMap fields).any (fun field => field.status == "value")

/-- The three blocks `if (angles.X != null) { fields.X = ...; fields.Xext = ...; }`. -/
def setAngleFields (fields : Fields α) (angles : AngleSet α) : Fields α :=
  let fields := match angles.A with
    | some A => (fields.set .A (Field.ofValue A)).set .Aext (Field.ofValue (180 - A))
    | none => fields
  let fields := match angles.B with
    | some B => (fields.set .B (Field.ofValue B)).set .Bext (Field.ofValue (180 - B))
    | none => fields
  let fields := match angles.C with
    | some C => (fields.set .C (Field.ofValue C)).set .Cext (Field.ofValue (180 - C))
    | none => fields
  fields

/-- The tail of `solveFromAngles`: the status from `anyValue` and the returned object. -/
def finishAngles (fields : Fields α) (reason : String) (previewAngles : Option (AngleSet α)) :
    SolveResult α :=
  { fields := fields
    status := if anyValue fields then "OK" else "N.A."
    statusReason := reason
    previewAngles := previewAngles }

/-- Source: `function solveFromAngles(inputs)`. -/
def solveFromAngles (m : JSMath α) (inputs : Inputs α) : SolveResult α :=
  match normalizeAngles inputs with
  | .bad reason => makeAllBad reason
  | .na angles reason =>
    let fields : Fields α := FIELD_KEYS.foldl
      (fun fields key => fields.set key (Field.ofNA reason)) (fun _ => none)
    let fields := setAngleFields fields angles
    let fields := fields.set .a (Field.ofNA reason)
    let fields := fields.set .b (Field.ofNA reason)
    let fields := fields.set .c (Field.ofNA reason)
    finishAngles fields reason none
  | .ok angles reason =>
    let fields : Fields α := FIELD_KEYS.foldl
      (fun fields key => fields.set key (Field.ofNA reason)) (fun _ => none)
    let fields := setAngleFields fields angles
    let previewAngles := some angles
    match computeSides m inputs angles with
    | .bad sideReason => makeAllBad sideReason
    | .ok sides =>
      let fields := fields.set .a (Field.ofValue sides.a)
      let fields := fields.set .b (Field.ofValue sides.b)
      let fields := fields.set .c (Field.ofValue sides.c)
      finishAngles fields reason previewAngles
    | .na sideReason =>
      let fields := fields.set .a (Field.ofNA sideReason)
      let fields := fields.set .b (Field.ofNA sideReason)
      let fields := fields.set .c (Field.ofNA sideReason)
      finishAngles fields reason previewAngles

/-! ## `solveFromPoints` (lines 330-375) -/

/-- A canvas point `{ x, y }`. -/
structure Point (α : Type) where
  x : α
  y : α
  deriving DecidableEq, Repr

/-- Source: `function dist(p1, p2) { return Math.hypot(p1.x - p2.x, p1.y - p2.y); }`. -/
def dist (m : JSMath α) (p1 p2 : Point α) : α :=
  m.hypot (p1.x - p2.x) (p1.y - p2.y)

/-- Source: `function angleAt(p, p1, p2)`: `null` when `denom === 0`. -/
def angleAt (m : JSMath α) (p p1 p2 : Point α) : Option α :=
  let v1 : Point α := { x := p1.x - p.x, y := p1.y - p.y }
  let v2 : Point α := { x := p2.x - p.x, y := p2.y - p.y }
  let dot := v1.x * v2.x + v1.y * v2.y
  let denom := m.hypot v1.x v1.y * m.hypot v2.x v2.y
  if denom = 0 then none
  else
    let cos := dot / denom
    let cos := min 1 (max (-1) cos)
    some ((m.acos cos * 180) / m.PI)

/-- Source: `function solveFromPoints(points)`; `const [Apt, Bpt, Cpt] = points` takes the first
three points. -/
def solveFromPoints (m : JSMath α) (points : List (Point α)) : SolveResult α :=
  match points with
  | Apt :: Bpt :: Cpt :: _ =>
    let area2 := |(Bpt.x - Apt.x) * (Cpt.y - Apt.y) - (Bpt.y - Apt.y) * (Cpt.x - Apt.x)|
    if area2 < 1 / 100 then
      makeAllBad "Points are collinear (not a valid triangle)."
    else
      let a := dist m Bpt Cpt
      let b := dist m Apt Cpt
      let c := dist m Apt Bpt
      let A := angleAt m Apt Bpt Cpt
      let B := angleAt m Bpt Apt Cpt
      let C := angleAt m Cpt Apt Bpt
      if !isAngleValid A || !isAngleValid B || !isAngleValid C then
        makeAllBad "Triangle angles are invalid."
      else
        let sum := orZero A + orZero B + orZero C
        if |sum - 180| > 3 / 2 then
          makeAllBad "Angles do not sum to 180 degrees."
        else
          let fields : Fields α := fun _ => none
          let fields := fields.set .A (Field.ofValue (orZero A))
          let fields := fields.set .B (Field.ofValue (orZero B))
          let fields := fields.set .C (Field.ofValue (orZero C))
          let fields := fields.set .Aext (Field.ofValue (180 - orZero A))
          let fields := fields.set .Bext (Field.ofValue (180 - orZero B))
          let fields := fields.set .Cext (Field.ofValue (180 - orZero C))
          let fields := fields.set .a (Field.ofValue a)
          let fields := fields.set .b (Field.ofValue b)
          let fields := fields.set .c (Field.ofValue c)
          { fields := fields
            status := "OK"
            statusReason := ""
            previewAngles := some { A := A, B := B, C := C } }
  | _ => makeAllNA "Waiting for 3 points on the canvas."

/-! ## Auxiliary notions used in the statements -/

/-- The label of `pair` fails one of the two checks of its loop iteration. -/
def labelFails (inputs : Inputs α) (pair : FieldKey × FieldKey) : Bool :=
  pairMismatch (inputs.get pair.1) (inputs.get pair.2) ||
    valueInvalid (workingValue (inputs.get pair.1) (inputs.get pair.2))

/-- Interior and exterior of one label agree: when both are present, their sum is
within `EPS` of `180`. -/
def pairConsistent (interior exterior : Option α) : Prop :=
  ∀ x e, interior = some x → exterior = some e → |x + e - 180| ≤ EPS

/-- Exactly two labels have a working value, `X` and `Y` in label order, and the third label
has neither an interior nor an exterior value. -/
def TwoKnown (i : Inputs α) (X Y : α) : Prop :=
  (workingValue i.A i.Aext = some X ∧ workingValue i.B i.Bext = some Y ∧
      i.C = none ∧ i.Cext = none) ∨
  (workingValue i.A i.Aext = some X ∧ workingValue i.C i.Cext = some Y ∧
      i.B = none ∧ i.Bext = none) ∨
  (workingValue i.B i.Bext = some X ∧ workingValue i.C i.Cext = some Y ∧
      i.A = none ∧ i.Aext = none)

/-- The first present side in the priority order `a`, `b`, `c`, with its value. -/
def firstSide (i : Inputs α) : Option (FieldKey × α) :=
  match i.a, i.b, i.c with
  | some s, _, _ => some (.a, s)
  | none, some s, _ => some (.b, s)
  | none, none, some s => some (.c, s)
  | none, none, none => none

/-- The angle opposite a side: `A` for `a`, `B` for `b`, `C` for `c`. -/
def oppositeAngle (A B C : α) : FieldKey → α
  | .a => A
  | .b => B
  | .c => C
  | _ => 0

/-- What `computeSides` does as a function of the first present side alone. -/
def sidesFrom (m : JSMath α) (first : Option (FieldKey × α)) (angles : AngleSet α) :
    SideResult α :=
  match first with
  | none => .na "Provide one side length to compute sides."
  | some (L, s) =>
    if s ≤ 0 then .bad "Side length must be greater than zero."
    else
      match jsDiv s (m.sin (degToRad m
          (oppositeAngle (orZero angles.A) (orZero angles.B) (orZero angles.C) L))) with
      | none => .bad "Cannot compute side lengths with given values."
      | some k =>
        .ok { a := k * m.sin (degToRad m (orZero angles.A))
              b := k * m.sin (degToRad m (orZero angles.B))
              c := k * m.sin (degToRad m (orZero angles.C)) }

/-- The fields of a result that is not all-bad: every key is tagged `value` or `na`. -/
def Fields.Settled (fields : Fields α) : Prop :=
  ∀ k, ∃ f, fields k = some f ∧ (f.status = "value" ∨ f.status = "na")

/-- The classification every solve result obeys: all nine keys are present, each tagged
`value`, `bad` or `na`; either the status is `Bad value` and every field is `bad`, or no field
is `bad`, the status is `OK` exactly when some field is a `value`, and `N.A.` otherwise. -/
def SolveResult.Classified (r : SolveResult α) : Prop :=
  (∀ k, ∃ f, r.fields k = some f ∧ (f.status = "value" ∨ f.status = "bad" ∨ f.status = "na")) ∧
  ((r.status = "Bad value" ∧ ∀ k f, r.fields k = some f → f.status = "bad") ∨
    ((∀ k f, r.fields k = some f → f.status ≠ "bad") ∧
      (r.status = "OK" ↔ ∃ k f, r.fields k = some f ∧ f.status = "value") ∧
      ((¬ ∃ k f, r.fields k = some f ∧ f.status = "value") → r.status = "N.A.")))

/-! ## `normalizeAngles` with rounded arithmetic

The program computes with IEEE doubles: every `+` and `-` returns the exact result rounded to
a double. Below, `fl` is that rounding, applied to the exact result of each sum and
difference of `normalizeAngles`; comparisons and `Math.abs` are exact. With `fl = id` this
is `normalizeAngles` itself. -/

/-- Source: `approxEqual(a, b, tol)`, the difference `a - b` rounded by `fl`. -/
def approxEqualFl (fl : α → α) (a b tol : α) : Bool :=
  decide (|fl (a - b)| ≤ tol)

/-- The test `interior != null && exterior != null &&
!approxEqual(interior + exterior, 180, EPS)`, the sum rounded by `fl`. -/
def pairMismatchFl (fl : α → α) (interior exterior : Option α) : Bool :=
  match interior, exterior with
  | some i, some e => !approxEqualFl fl (fl (i + e)) 180 EPS
  | _, _ => false

/-- Source: `let value = interior; if (value == null && exterior != null) value = 180 -
exterior;`, the difference rounded by `fl`. -/
def workingValueFl (fl : α → α) (interior exterior : Option α) : Option α :=
  match interior, exterior with
  | some i, _ => some i
  | none, some e => some (fl (180 - e))
  | none, none => none

/-- One iteration of the `for (const pair of checks)` loop, with rounded arithmetic. -/
def normalizeStepFl (fl : α → α) (inputs : Inputs α) (angles : AngleSet α)
    (pair : FieldKey × FieldKey) : Except String (AngleSet α) :=
  let interior := inputs.get pair.1
  let exterior := inputs.get pair.2
  if pairMismatchFl fl interior exterior then
    .error (mismatchReason pair.1)
  else
    let value := workingValueFl fl interior exterior
    if valueInvalid value then
      .error (invalidReason pair.1)
    else
      .ok (angles.set pair.1 value)

/-- The whole `for` loop of `normalizeAngles`, with rounded arithmetic. -/
def normalizeLoopFl (fl : α → α) (inputs : Inputs α) : Except String (AngleSet α) :=
  checks.foldlM (normalizeStepFl fl inputs) ⟨none, none, none⟩

/-- Source: `(angles.A || 0) + (angles.B || 0) + (angles.C || 0)`, evaluated left to right,
each sum rounded by `fl`. -/
def sumKnownFl (fl : α → α) (angles : AngleSet α) : α :=
  fl (fl (orZero angles.A + orZero angles.B) + orZero angles.C)

/-- Source: `function normalizeAngles(inputs)`, with rounded arithmetic. -/
def normalizeAnglesFl (fl : α → α) (inputs : Inputs α) : NormResult α :=
  match normalizeLoopFl fl inputs with
  | .error reason => .bad reason
  | .ok angles =>
    let known := knownCount angles
    let sumKnown := sumKnownFl fl angles
    if known < 2 then
      .na angles "Need at least two angles to solve."
    else if known = 2 then
      let missing := fl (180 - sumKnown)
      if missing ≤ 0 ∨ 180 ≤ missing then
        .bad "Angles do not form a valid triangle."
      else
        .ok (fillMissing angles missing) ""
    else if !approxEqualFl fl sumKnown 180 EPS then
      .bad "Angles do not sum to 180 degrees."
    else
      .ok angles ""

/-- Interior and exterior of one label pass the program's consistency test: when both are
present, `|interior + exterior - 180| <= EPS` as the program evaluates it. -/
def pairConsistentFl (fl : α → α) (interior exterior : Option α) : Prop :=
  ∀ x e, interior = some x → exterior = some e → |fl (fl (x + e) - 180)| ≤ EPS

/-- Exactly two labels have a working value, `X` and `Y` in label order, and the third label
has neither an interior nor an exterior value (rounded arithmetic). -/
def TwoKnownFl (fl : α → α) (i : Inputs α) (X Y : α) : Prop :=
  (workingValueFl fl i.A i.Aext = some X ∧ workingValueFl fl i.B i.Bext = some Y ∧
      i.C = none ∧ i.Cext = none) ∨
  (workingValueFl fl i.A i.Aext = some X ∧ workingValueFl fl i.C i.Cext = some Y ∧
      i.B = none ∧ i.Bext = none) ∨
  (workingValueFl fl i.B i.Bext = some X ∧ workingValueFl fl i.C i.Cext = some Y ∧
      i.A = none ∧ i.Aext = none)

/-- The working values of the three labels, as the loop of `normalizeAngles` stores them. -/
def workingAnglesFl (fl : α → α) (i : Inputs α) : AngleSet α :=
  ⟨workingValueFl fl i.A i.Aext, workingValueFl fl i.B i.Bext, workingValueFl fl i.C i.Cext⟩

/-- The third angle as the program computes it: `missing = 180 - sumKnown`. -/
def missingFl (fl : α → α) (i : Inputs α) : α :=
  fl (180 - sumKnownFl fl (workingAnglesFl fl i))

/-! ## `computeSides` and `solveFromPoints` with rounded arithmetic

As above, `fl` rounds the exact result of every `+`, `-`, `*` and `/`; `finite` is
`Number.isFinite` on such a result (false after an overflow). The `Math` functions of `m`
return the numbers the program gets from them. With `fl = id` and `finite` always true these
are `computeSides` and `solveFromPoints` themselves. -/

/-- Source: `function degToRad(deg) { return (deg * Math.PI) / 180; }`, rounded. -/
def degToRadFl (fl : α → α) (m : JSMath α) (deg : α) : α :=
  fl (fl (deg * m.PI) / 180)

/-- The quotient `x / y` as far as `Number.isFinite` can tell: a zero divisor or an overflow
gives a result that is not finite, which is `none`. -/
def jsDivFl (fl : α → α) (finite : α → Bool) (x y : α) : Option α :=
  if y = 0 then none
  else if finite (fl (x / y)) then some (fl (x / y))
  else none

/-- Source: `function computeSides(inputs, angles)`, with rounded arithmetic. -/
def computeSidesFl (fl : α → α) (finite : α → Bool) (m : JSMath α) (inputs : Inputs α)
    (angles : AngleSet α) : SideResult α :=
  match providedSide inputs with
  | none => .na "Provide one side length to compute sides."
  | some provided =>
    if orZero (inputs.get provided) ≤ 0 then
      .bad "Side length must be greater than zero."
    else
      let A := degToRadFl fl m (orZero angles.A)
      let B := degToRadFl fl m (orZero angles.B)
      let C := degToRadFl fl m (orZero angles.C)
      let sinA := m.sin A
      let sinB := m.sin B
      let sinC := m.sin C
      let k : Option α := none
      let k := if provided = .a then jsDivFl fl finite (orZero inputs.a) sinA else k
      let k := if provided = .b then jsDivFl fl finite (orZero inputs.b) sinB else k
      let k := if provided = .c then jsDivFl fl finite (orZero inputs.c) sinC else k
      match k with
      | none => .bad "Cannot compute side lengths with given values."
      | some k => .ok { a := fl (k * sinA), b := fl (k * sinB), c := fl (k * sinC) }

/-- Source: `function dist(p1, p2)`, with rounded differences. -/
def distFl (fl : α → α) (m : JSMath α) (p1 p2 : Point α) : α :=
  m.hypot (fl (p1.x - p2.x)) (fl (p1.y - p2.y))

/-- Source: `function angleAt(p, p1, p2)`, with rounded arithmetic. -/
def angleAtFl (fl : α → α) (m : JSMath α) (p p1 p2 : Point α) : Option α :=
  let v1 : Point α := { x := fl (p1.x - p.x), y := fl (p1.y - p.y) }
  let v2 : Point α := { x := fl (p2.x - p.x), y := fl (p2.y - p.y) }
  let dot := fl (fl (v1.x * v2.x) + fl (v1.y * v2.y))
  let denom := fl (m.hypot v1.x v1.y * m.hypot v2.x v2.y)
  if denom = 0 then none
  else
    let cos := fl (dot / denom)
    let cos := min 1 (max (-1) cos)
    some (fl (fl (m.acos cos * 180) / m.PI))

/-- The value of `area2` in `solveFromPoints`, with rounded arithmetic. -/
def area2Fl (fl : α → α) (Apt Bpt Cpt : Point α) : α :=
  |fl (fl (fl (Bpt.x - Apt.x) * fl (Cpt.y - Apt.y)) -
    fl (fl (Bpt.y - Apt.y) * fl (Cpt.x - Apt.x)))|

/-- Source: `function solveFromPoints(points)`, with rounded arithmetic. -/
def solveFromPointsFl (fl : α → α) (m : JSMath α) (points : List (Point α)) : SolveResult α :=
  match points with
  | Apt :: Bpt :: Cpt :: _ =>
    if area2Fl fl Apt Bpt Cpt < 1 / 100 then
      makeAllBad "Points are collinear (not a valid triangle)."
    else
      let a := distFl fl m Bpt Cpt
      let b := distFl fl m Apt Cpt
      let c := distFl fl m Apt Bpt
      let A := angleAtFl fl m Apt Bpt Cpt
      let B := angleAtFl fl m Bpt Apt Cpt
      let C := angleAtFl fl m Cpt Apt Bpt
      if !isAngleValid A || !isAngleValid B || !isAngleValid C then
        makeAllBad "Triangle angles are invalid."
      else
        let sum := fl (fl (orZero A + orZero B) + orZero C)
        if |fl (sum - 180)| > 3 / 2 then
          makeAllBad "Angles do not sum to 180 degrees."
        else
          let fields : Fields α := fun _ => none
          let fields := fields.set .A (Field.ofValue (orZero A))
          let fields := fields.set .B (Field.ofValue (orZero B))
          let fields := fields.set .C (Field.ofValue (orZero C))
          let fields := fields.set .Aext (Field.ofValue (fl (180 - orZero A)))
          let fields := fields.set .Bext (Field.ofValue (fl (180 - orZero B)))
          let fields := fields.set .Cext (Field.ofValue (fl (180 - orZero C)))
          let fields := fields.set .a (Field.ofValue a)
          let fields := fields.set .b (Field.ofValue b)
          let fields := fields.set .c (Field.ofValue c)
          { fields := fields
            status := "OK"
            statusReason := ""
            previewAngles := some { A := A, B := B, C := C } }
  | _ => makeAllNA "Waiting for 3 points on the canvas."

/-! ## Application state and history (lines 20-30, 43-69, 129-189) -/

/-- The two values of `state.mode`: `'draw'` and `'angles'`. -/
inductive Mode where
  | draw
  | angles
  deriving DecidableEq, Repr

/-- The `attempt` object built by `compute`: `{ mode, inputs, points, results,
previewAngles }`. -/
structure HistoryAttempt (α : Type) where
  mode : Mode
  inputs : Option (Inputs α)
  points : Option (List (Point α))
  results : SolveResult α
  previewAngles : Option (AngleSet α)

/-- The object `state.history`: `{ exists, suppressed, attempt }`; the field `exists` is
written `exists_`. -/
structure HistoryState (α : Type) where
  exists_ : Bool
  suppressed : Bool
  attempt : Option (HistoryAttempt α)

/-- The object `state`, together with `form`, the nine angle and side text fields of the page
as `readAngleInputs` parses them (an empty or unparsable field is `null`). Rendering, which
changes no state, is left out. -/
structure AppState (α : Type) where
  mode : Mode
  points : List (Point α)
  hover : Option (Point α)
  currentAngles : Option (AngleSet α)
  history : HistoryState α
  form : Inputs α

/-- The initial value of `state.history`: `{ exists: false, suppressed: false,
attempt: null }`. -/
def HistoryState.initial : HistoryState α :=
  { exists_ := false, suppressed := false, attempt := none }

/-- The initial value of `state` (lines 20-30), with the contents `form` of the text fields
when the page loads. -/
def initialState (form : Inputs α) : AppState α :=
  { mode := .draw, points := [], hover := none, currentAngles := none,
    history := HistoryState.initial, form := form }

/-- The record `readAngleInputs` returns when every text field is empty. -/
def Inputs.empty : Inputs α :=
  ⟨none, none, none, none, none, none, none, none, none⟩

/-- Source: `function readAngleInputs()`: the parsed contents of the nine text fields. -/
def readAngleInputs (state : AppState α) : Inputs α :=
  state.form

/-- Source: `function fillAngleInputs(inputs)`: each field receives `valueOrEmpty` of its
value, which parses back to the same number or to `null`. -/
def fillAngleInputs (state : AppState α) (inputs : Inputs α) : AppState α :=
  { state with form := inputs }

/-- Source: `function clearAngleInputs()`. -/
def clearAngleInputs (state : AppState α) : AppState α :=
  { state with form := Inputs.empty }

/-- Source: `function clearDrawPoints()`. -/
def clearDrawPoints (state : AppState α) : AppState α :=
  { state with points := [], hover := none }

/-- Source: `function setMode(mode, options = {})`, with `preserve` for `options.preserve`. -/
def setMode (state : AppState α) (mode : Mode) (preserve : Bool) : AppState α :=
  let state := { state with mode := mode }
  if !preserve then
    if mode = .draw then
      { clearAngleInputs state with currentAngles := none }
    else
      { clearDrawPoints state with currentAngles := none }
  else
    state

/-- Source: `function updateHistoryPanel(attempt)`. -/
def updateHistoryPanel (state : AppState α) (attempt : HistoryAttempt α) : AppState α :=
  { state with history := { exists_ := true, suppressed := false, attempt := some attempt } }

/-- Source: `function compute(updateHistory = true)`. -/
def compute (m : JSMath α) (state : AppState α) (updateHistory : Bool) : AppState α :=
  let result := if state.mode = .draw then solveFromPoints m state.points
    else solveFromAngles m (readAngleInputs state)
  let inputsSnapshot := if state.mode = .draw then none else some (readAngleInputs state)
  let pointsSnapshot := if state.mode = .draw then
      some (state.points.map (fun p => ({ x := p.x, y := p.y } : Point α)))
    else none
  let state := { state with currentAngles := result.previewAngles }
  if updateHistory then
    updateHistoryPanel state
      { mode := state.mode
        inputs := inputsSnapshot
        points := pointsSnapshot
        results := result
        previewAngles := result.previewAngles }
  else
    state

/-- Source: `function applyHistory()`. -/
def applyHistory (m : JSMath α) (state : AppState α) : AppState α :=
  match state.history.attempt with
  | none => state
  | some attempt =>
    let state := { state with history := { state.history with suppressed := true } }
    let state :=
      if attempt.mode = .draw then
        let state := setMode state .draw true
        { state with points := match attempt.points with
            | some points => points.map (fun p => ({ x := p.x, y := p.y } : Point α))
            | none => [] }
      else
        let state := setMode state .angles true
        fillAngleInputs state (attempt.inputs.getD Inputs.empty)
    compute m state false

/-- The click handler of the history panel: `if (!state.history.exists) return;
applyHistory();`. -/
def historyPanelClick (m : JSMath α) (state : AppState α) : AppState α :=
  if !state.history.exists_ then state else applyHistory m state

/-- The two transitions of the history: a record of an attempt and a replay. -/
inductive HistoryEvent (α : Type) where
  | record (attempt : HistoryAttempt α)
  | replay

/-- One transition: `record` is `updateHistoryPanel`, `replay` is `applyHistory`. -/
def historyStep (m : JSMath α) (state : AppState α) : HistoryEvent α → AppState α
  | .record attempt => updateHistoryPanel state attempt
  | .replay => applyHistory m state

/-- A finite sequence of transitions, oldest first. -/
def historyRun (m : JSMath α) (state : AppState α) (events : List (HistoryEvent α)) :
    AppState α :=
  events.foldl (historyStep m) state

/-- Some record has occurred, the last one is followed by replays only, and by at least one. -/
def ReplayedSinceLastRecord (events : List (HistoryEvent α)) : Prop :=
  ∃ pre attempt post, events = pre ++ HistoryEvent.record attempt :: post ∧
    (∀ e ∈ post, e = HistoryEvent.replay) ∧ post ≠ []

end Generic

/-! ## IEEE 754 binary64 rounding

The rounding of the program's arithmetic on finite numbers: round to nearest, ties to even,
with a 53-bit significand and least exponent `-1074`. -/

section Rounding

variable {R : Type} [LinearOrderedField R] [FloorRing R]

/-- The exponent of the unit in the last place at `q`: 52 below the binary exponent of `q`,
and `-1074` throughout the subnormal range. -/
def ulpExponent (q : R) : ℤ :=
  max (Int.log 2 |q| - 52) (-1074)

/-- Rounding to the nearest integer, a tie going to the even neighbour. -/
def roundHalfEven (q : R) : ℤ :=
  if q - ⌊q⌋ < 1 / 2 then ⌊q⌋
  else if 1 / 2 < q - ⌊q⌋ then ⌊q⌋ + 1
  else if ⌊q⌋ % 2 = 0 then ⌊q⌋
  else ⌊q⌋ + 1

/-- The double nearest to `q` (ties to even). A result of magnitude `2 ^ 1024` or more stands
for an overflow to `Infinity`. -/
def roundDouble (q : R) : R :=
  roundHalfEven (q / 2 ^ ulpExponent q) * 2 ^ ulpExponent q

/-- Source: `Number.isFinite` on a rounded result: no overflow has occurred. -/
def doubleFinite (q : R) : Bool :=
  decide (|q| < 2 ^ (1024 : ℕ))

end Rounding

/-- The double written `1e-15`: `0x1.203af9ee75616p-50`. -/
def tinyAngle : ℚ :=
  5070602400912918 / 2 ^ 102

/-- The `Math` object of exact real arithmetic: `Math.sin`, `Math.acos`,
`Math.hypot(x, y) = sqrt(x^2 + y^2)` and `Math.PI` are the mathematical functions and `π`.
The `Math` object the program runs against on doubles is `doubleMath`. -/
noncomputable def realMath : JSMath ℝ where
  sin := Real.sin
  acos := Real.arccos
  hypot := fun x y => Real.sqrt (x ^ 2 + y ^ 2)
  PI := Real.pi
  PI_pos := Real.pi_pos

/-- The double `Math.PI`: `0x1.921fb54442d18p+1`. -/
noncomputable def doublePI : ℝ :=
  884279719003555 / 2 ^ 48

/-- The `Math` object on doubles, each function returning the double nearest to the exact
value: `Math.sin`, `Math.acos`, `Math.hypot` and `Math.PI`. In particular `sin 0 = 0`,
`acos 1 = 0` and `hypot x 0 = |x|` for a double `x`, as in every implementation. -/
noncomputable def doubleMath : JSMath ℝ where
  sin := fun x => roundDouble (Real.sin x)
  acos := fun x => roundDouble (Real.arccos x)
  hypot := fun x y => roundDouble (Real.sqrt (x ^ 2 + y ^ 2))
  PI := doublePI
  PI_pos := by unfold doublePI; positivity

/-! ## The per-label loop of `normalizeAngles` -/

section Lemmas

variable {α : Type} [LinearOrderedField α]

theorem normalizeLoop_unfold (inputs : Inputs α) :
    normalizeLoop inputs =
      if pairMismatch inputs.A inputs.Aext then .error (mismatchReason .A)
      else if valueInvalid (workingValue inputs.A inputs.Aext) then .error (invalidReason .A)
      else if pairMismatch inputs.B inputs.Bext then .error (mismatchReason .B)
      else if valueInvalid (workingValue inputs.B inputs.Bext) then .error (invalidReason .B)
      else if pairMismatch inputs.C inputs.Cext then .error (mismatchReason .C)
      else if valueInvalid (workingValue inputs.C inputs.Cext) then .error (invalidReason .C)
      else .ok ⟨workingValue inputs.A inputs.Aext, workingValue inputs.B inputs.Bext,
        workingValue inputs.C inputs.Cext⟩ := by
  simp only [normalizeLoop, checks, List.foldlM, normalizeStep, Inputs.get, AngleSet.set, bind,
    Except.bind, pure, Except.pure]
  split_ifs <;> rfl

theorem pairMismatch_eq_false_iff (interior exterior : Option α) :
    pairMismatch interior exterior = false ↔ pairConsistent interior exterior := by
  cases interior <;> cases exterior <;> simp [pairMismatch, pairConsistent, approxEqual]

theorem valueInvalid_eq_false_iff (value : Option α) :
    valueInvalid value = false ↔ ∀ v, value = some v → 0 < v ∧ v < 180 := by
  cases value <;> simp [valueInvalid]

theorem labelFails_eq_false_iff (inputs : Inputs α) (pair : FieldKey × FieldKey) :
    labelFails inputs pair = false ↔
      pairConsistent (inputs.get pair.1) (inputs.get pair.2) ∧
      ∀ v, workingValue (inputs.get pair.1) (inputs.get pair.2) = some v → 0 < v ∧ v < 180 := by
  simp [labelFails, pairMismatch_eq_false_iff, valueInvalid_eq_false_iff]

theorem normalizeLoop_eq_ok_iff (inputs : Inputs α) (angles : AngleSet α) :
    normalizeLoop inputs = .ok angles ↔
      labelFails inputs (.A, .Aext) = false ∧ labelFails inputs (.B, .Bext) = false ∧
      labelFails inputs (.C, .Cext) = false ∧
      angles = ⟨workingValue inputs.A inputs.Aext, workingValue inputs.B inputs.Bext,
        workingValue inputs.C inputs.Cext⟩ := by
  rw [normalizeLoop_unfold]
  simp only [labelFails, Inputs.get, Bool.or_eq_false_iff]
  split_ifs <;> first
    | (simp_all; done)
    | (simp_all; exact eq_comm)

end Lemmas

/-! ## `normalizeAngles`: completing and checking the triple -/

section AngleTheorems

variable {α : Type} [LinearOrderedField α]

theorem normalizeAngles_of_passing (i : Inputs α)
    (hA : labelFails i (.A, .Aext) = false) (hB : labelFails i (.B, .Bext) = false)
    (hC : labelFails i (.C, .Cext) = false) :
    normalizeAngles i =
      (let angles : AngleSet α := ⟨workingValue i.A i.Aext, workingValue i.B i.Bext,
        workingValue i.C i.Cext⟩
      let sumKnown := orZero angles.A + orZero angles.B + orZero angles.C
      if knownCount angles < 2 then .na angles "Need at least two angles to solve."
      else if knownCount angles = 2 then
        if 180 - sumKnown ≤ 0 ∨ 180 ≤ 180 - sumKnown then
          .bad "Angles do not form a valid triangle."
        else .ok (fillMissing angles (180 - sumKnown)) ""
      else if !approxEqual sumKnown 180 EPS then .bad "Angles do not sum to 180 degrees."
      else .ok angles "") := by
  have h := (normalizeLoop_eq_ok_iff i _).2 ⟨hA, hB, hC, rfl⟩
  simp only [normalizeAngles, h]

theorem normalizeLoopFl_unfold (fl : α → α) (inputs : Inputs α) :
    normalizeLoopFl fl inputs =
      if pairMismatchFl fl inputs.A inputs.Aext then .error (mismatchReason .A)
      else if valueInvalid (workingValueFl fl inputs.A inputs.Aext) then
        .error (invalidReason .A)
      else if pairMismatchFl fl inputs.B inputs.Bext then .error (mismatchReason .B)
      else if valueInvalid (workingValueFl fl inputs.B inputs.Bext) then
        .error (invalidReason .B)
      else if pairMismatchFl fl inputs.C inputs.Cext then .error (mismatchReason .C)
      else if valueInvalid (workingValueFl fl inputs.C inputs.Cext) then
        .error (invalidReason .C)
      else .ok (workingAnglesFl fl inputs) := by
  simp only [normalizeLoopFl, checks, List.foldlM, normalizeStepFl, Inputs.get, AngleSet.set,
    bind, Except.bind, pure, Except.pure, workingAnglesFl]
  split_ifs <;> rfl

theorem pairMismatchFl_eq_false_iff (fl : α → α) (interior exterior : Option α) :
    pairMismatchFl fl interior exterior = false ↔ pairConsistentFl fl interior exterior := by
  cases interior <;> cases exterior <;> simp [pairMismatchFl, pairConsistentFl, approxEqualFl]

theorem pairMismatchFl_id (interior exterior : Option α) :
    pairMismatchFl id interior exterior = pairMismatch interior exterior := by
  cases interior <;> cases exterior <;> simp [pairMismatchFl, pairMismatch, approxEqualFl,
    approxEqual]

theorem workingValueFl_id (interior exterior : Option α) :
    workingValueFl id interior exterior = workingValue interior exterior := by
  cases interior <;> cases exterior <;> simp [workingValueFl, workingValue]

/-- With `fl = id` the rounded version is `normalizeAngles` itself. -/
theorem normalizeAnglesFl_id (inputs : Inputs α) :
    normalizeAnglesFl id inputs = normalizeAngles inputs := by
  have hl : normalizeLoopFl id inputs = normalizeLoop inputs := by
    rw [normalizeLoopFl_unfold, normalizeLoop_unfold]
    simp only [pairMismatchFl_id, workingValueFl_id, workingAnglesFl]
  simp only [normalizeAnglesFl, normalizeAngles, hl, sumKnownFl, approxEqualFl, approxEqual, id]

/-- C1 (amended): when exactly two labels have a working value `X`, `Y`, both strictly between
`0` and `180`, the third label is empty, no label fails the program's test of interior against
exterior, and the third angle as the program computes it, `missing = 180 - (X + Y)` with the
sum and the difference rounded, lies strictly between `0` and `180`, then `normalizeAngles`
returns `ok` with the two known angles unchanged and the third equal to `missing`. When the
sum and the difference are computed without rounding error, `missing` is exactly
`180 - X - Y` and the triple sums to exactly `180`. The rounding `fl` is arbitrary. -/
theorem normalizeAngles_two_known (fl : α → α) (i : Inputs α) (X Y : α)
    (hk : TwoKnownFl fl i X Y) (hX : 0 < X ∧ X < 180) (hY : 0 < Y ∧ Y < 180)
    (hA : pairConsistentFl fl i.A i.Aext) (hB : pairConsistentFl fl i.B i.Bext)
    (hC : pairConsistentFl fl i.C i.Cext)
    (hm : 0 < missingFl fl i ∧ missingFl fl i < 180) :
    ∃ a b c, normalizeAnglesFl fl i = .ok ⟨some a, some b, some c⟩ "" ∧
      (∀ v, workingValueFl fl i.A i.Aext = some v → a = v) ∧
      (∀ v, workingValueFl fl i.B i.Bext = some v → b = v) ∧
      (∀ v, workingValueFl fl i.C i.Cext = some v → c = v) ∧
      (workingValueFl fl i.A i.Aext = none → a = missingFl fl i) ∧
      (workingValueFl fl i.B i.Bext = none → b = missingFl fl i) ∧
      (workingValueFl fl i.C i.Cext = none → c = missingFl fl i) ∧
      (sumKnownFl fl (workingAnglesFl fl i) = X + Y →
        fl (180 - (X + Y)) = 180 - (X + Y) →
        missingFl fl i = 180 - X - Y ∧ a + b + c = 180) := by
  have hmA := (pairMismatchFl_eq_false_iff fl _ _).2 hA
  have hmB := (pairMismatchFl_eq_false_iff fl _ _).2 hB
  have hmC := (pairMismatchFl_eq_false_iff fl _ _).2 hC
  have hnot : ¬ (missingFl fl i ≤ 0 ∨ 180 ≤ missingFl fl i) := by
    rintro (h | h) <;> linarith [hm.1, hm.2]
  have hvX : valueInvalid (some X) = false := by
    simp [valueInvalid, hX.1, hX.2]
  have hvY : valueInvalid (some Y) = false := by
    simp [valueInvalid, hY.1, hY.2]
  have hvN : valueInvalid (none : Option α) = false := rfl
  have hexact : sumKnownFl fl (workingAnglesFl fl i) = X + Y →
      fl (180 - (X + Y)) = 180 - (X + Y) → missingFl fl i = 180 - X - Y := by
    intro h1 h2
    rw [missingFl, h1, h2]
    ring
  rcases hk with ⟨hx, hy, hn, hn'⟩ | ⟨hx, hy, hn, hn'⟩ | ⟨hx, hy, hn, hn'⟩
  · have hw : workingValueFl fl i.C i.Cext = none := by rw [hn, hn']; rfl
    have hl : normalizeLoopFl fl i = .ok (workingAnglesFl fl i) := by
      rw [normalizeLoopFl_unfold]
      simp [hmA, hmB, hmC, hx, hy, hw, hvX, hvY, hvN]
    have hwa : workingAnglesFl fl i = ⟨some X, some Y, none⟩ := by
      simp [workingAnglesFl, hx, hy, hw]
    refine ⟨X, Y, missingFl fl i, ?_, ?_⟩
    · simp only [normalizeAnglesFl, hl]
      have hmiss : fl (180 - sumKnownFl fl (workingAnglesFl fl i)) = missingFl fl i := rfl
      simp only [hmiss, if_neg hnot]
      simp [hwa, knownCount, AngleSet.get, fillMissing]
    · simp only [hx, hy, hw]
      refine ⟨by simp, by simp, by simp, by simp, by simp, by simp, ?_⟩
      intro h1 h2
      have h3 := hexact h1 h2
      exact ⟨h3, by rw [h3]; ring⟩
  · have hw : workingValueFl fl i.B i.Bext = none := by rw [hn, hn']; rfl
    have hl : normalizeLoopFl fl i = .ok (workingAnglesFl fl i) := by
      rw [normalizeLoopFl_unfold]
      simp [hmA, hmB, hmC, hx, hy, hw, hvX, hvY, hvN]
    have hwa : workingAnglesFl fl i = ⟨some X, none, some Y⟩ := by
      simp [workingAnglesFl, hx, hy, hw]
    refine ⟨X, missingFl fl i, Y, ?_, ?_⟩
    · simp only [normalizeAnglesFl, hl]
      have hmiss : fl (180 - sumKnownFl fl (workingAnglesFl fl i)) = missingFl fl i := rfl
      simp only [hmiss, if_neg hnot]
      simp [hwa, knownCount, AngleSet.get, fillMissing]
    · simp only [hx, hy, hw]
      refine ⟨by simp, by simp, by simp, by simp, by simp, by simp, ?_⟩
      intro h1 h2
      have h3 := hexact h1 h2
      exact ⟨h3, by rw [h3]; ring⟩
  · have hw : workingValueFl fl i.A i.Aext = none := by rw [hn, hn']; rfl
    have hl : normalizeLoopFl fl i = .ok (workingAnglesFl fl i) := by
      rw [normalizeLoopFl_unfold]
      simp [hmA, hmB, hmC, hx, hy, hw, hvX, hvY, hvN]
    have hwa : workingAnglesFl fl i = ⟨none, some X, some Y⟩ := by
      simp [workingAnglesFl, hx, hy, hw]
    refine ⟨missingFl fl i, X, Y, ?_, ?_⟩
    · simp only [normalizeAnglesFl, hl]
      have hmiss : fl (180 - sumKnownFl fl (workingAnglesFl fl i)) = missingFl fl i := rfl
      simp only [hmiss, if_neg hnot]
      simp [hwa, knownCount, AngleSet.get, fillMissing]
    · simp only [hx, hy, hw]
      refine ⟨by simp, by simp, by simp, by simp, by simp, by simp, ?_⟩
      intro h1 h2
      have h3 := hexact h1 h2
      exact ⟨h3, by rw [h3]; ring⟩

/-- C1 (witness): angles `A = 60`, `B = 60` and nothing else, in exact arithmetic, give
`C = 60`, and the triple sums to `180`. -/
theorem normalizeAngles_two_known_witness :
    ∃ a b c : ℚ,
      normalizeAnglesFl id ⟨some 60, some 60, none, none, none, none, none, none, none⟩
        = .ok ⟨some a, some b, some c⟩ "" ∧ a = 60 ∧ b = 60 ∧ c = 60 ∧ a + b + c = 180 := by
  have hmiss : missingFl id
      (⟨some 60, some 60, none, none, none, none, none, none, none⟩ : Inputs ℚ) = 60 := by
    norm_num [missingFl, sumKnownFl, workingAnglesFl, workingValueFl, orZero]
  obtain ⟨a, b, c, hok, ha, hb, -, -, -, hc, hex⟩ :=
    normalizeAngles_two_known id
      (⟨some 60, some 60, none, none, none, none, none, none, none⟩ : Inputs ℚ) 60 60
      (Or.inl ⟨rfl, rfl, rfl, rfl⟩) (by norm_num) (by norm_num)
      (by simp [pairConsistentFl]) (by simp [pairConsistentFl]) (by simp [pairConsistentFl])
      (by rw [hmiss]; norm_num)
  refine ⟨a, b, c, hok, ha 60 rfl, hb 60 rfl, ?_, ?_⟩
  · rw [hc rfl, hmiss]
  · exact (hex (by norm_num [sumKnownFl, workingAnglesFl, workingValueFl, orZero])
      (by norm_num)).2

theorem roundHalfEven_eq {R : Type} [LinearOrderedField R] [FloorRing R] (x : R) (n : ℤ)
    (h : |x - n| < 1 / 2) : roundHalfEven x = n := by
  rw [abs_lt] at h
  unfold roundHalfEven
  by_cases hx : (n : R) ≤ x
  · have hf : ⌊x⌋ = n := Int.floor_eq_iff.2 ⟨hx, by linarith [h.2]⟩
    rw [hf, if_pos (by linarith [h.2])]
  · have hx' : x < n := not_le.1 hx
    have hf : ⌊x⌋ = n - 1 := Int.floor_eq_iff.2 ⟨by push_cast; linarith [h.1], by
      push_cast; linarith⟩
    rw [hf]
    have h1 : ¬ (x - ((n - 1 : ℤ) : R) < 1 / 2) := by push_cast; linarith [h.1]
    have h2 : (1 : R) / 2 < x - ((n - 1 : ℤ) : R) := by push_cast; linarith [h.1]
    rw [if_neg h1, if_pos h2]
    ring

theorem ulpExponent_eq {R : Type} [LinearOrderedField R] [FloorRing R] (q : R) (k : ℤ)
    (h1 : (2 : R) ^ k ≤ |q|) (h2 : |q| < (2 : R) ^ (k + 1))
    (hk : -1022 ≤ k) : ulpExponent q = k - 52 := by
  have hpos : 0 < |q| := lt_of_lt_of_le (zpow_pos (by norm_num) k) h1
  have hlog : Int.log 2 |q| = k := by
    have hle : k ≤ Int.log 2 |q| :=
      (Int.zpow_le_iff_le_log (by norm_num) hpos).1 (by exact_mod_cast h1)
    have hlt : Int.log 2 |q| < k + 1 :=
      (Int.lt_zpow_iff_log_lt (by norm_num) hpos).1 (by exact_mod_cast h2)
    omega
  unfold ulpExponent
  rw [hlog]
  exact max_eq_left (by omega)

theorem roundDouble_eq {R : Type} [LinearOrderedField R] [FloorRing R] (q : R) (k n : ℤ)
    (h1 : (2 : R) ^ k ≤ |q|) (h2 : |q| < (2 : R) ^ (k + 1)) (hk : -1022 ≤ k)
    (hn : |q / 2 ^ (k - 52) - n| < 1 / 2) : roundDouble q = n * 2 ^ (k - 52) := by
  unfold roundDouble
  rw [ulpExponent_eq q k h1 h2 hk, roundHalfEven_eq _ n hn]

theorem roundDouble_tiny_sum :
    roundDouble (tinyAngle + tinyAngle) = tinyAngle + tinyAngle := by
  have h1 : (2 : ℚ) ^ (-49 : ℤ) ≤ |tinyAngle + tinyAngle| := by
    norm_num [tinyAngle, abs_of_pos]
  have h2 : |tinyAngle + tinyAngle| < (2 : ℚ) ^ ((-49 : ℤ) + 1) := by
    norm_num [tinyAngle, abs_of_pos]
  have h3 : |(tinyAngle + tinyAngle) / 2 ^ ((-49 : ℤ) - 52) -
      ((5070602400912918 : ℤ) : ℚ)| < 1 / 2 := by
    norm_num [tinyAngle]
  have h4 : ((5070602400912918 : ℤ) : ℚ) * 2 ^ ((-49 : ℤ) - 52) = tinyAngle + tinyAngle := by
    norm_num [tinyAngle]
  rw [roundDouble_eq (tinyAngle + tinyAngle) (-49) 5070602400912918 h1 h2 (by norm_num) h3, h4]

theorem roundDouble_tiny_missing :
    roundDouble (180 - (tinyAngle + tinyAngle)) = 180 := by
  have h1 : (2 : ℚ) ^ (7 : ℤ) ≤ |180 - (tinyAngle + tinyAngle)| := by
    rw [abs_of_pos (by norm_num [tinyAngle])]
    norm_num [tinyAngle]
  have h2 : |180 - (tinyAngle + tinyAngle)| < (2 : ℚ) ^ ((7 : ℤ) + 1) := by
    rw [abs_of_pos (by norm_num [tinyAngle])]
    norm_num [tinyAngle]
  have h3 : |(180 - (tinyAngle + tinyAngle)) / 2 ^ ((7 : ℤ) - 52) -
      ((6333186975989760 : ℤ) : ℚ)| < 1 / 2 := by
    rw [abs_lt]
    constructor <;> norm_num [tinyAngle]
  have h4 : ((6333186975989760 : ℤ) : ℚ) * 2 ^ ((7 : ℤ) - 52) = 180 := by
    norm_num
  rw [roundDouble_eq (180 - (tinyAngle + tinyAngle)) 7 6333186975989760 h1 h2 (by norm_num) h3,
    h4]

theorem normalizeAnglesFl_of_two (fl : α → α) (i : Inputs α) (a b : α)
    (hl : normalizeLoopFl fl i = .ok ⟨some a, some b, none⟩) :
    normalizeAnglesFl fl i =
      if fl (180 - fl (fl (a + b) + 0)) ≤ 0 ∨ 180 ≤ fl (180 - fl (fl (a + b) + 0)) then
        .bad "Angles do not form a valid triangle."
      else .ok ⟨some a, some b, some (fl (180 - fl (fl (a + b) + 0)))⟩ "" := by
  simp [normalizeAnglesFl, hl, sumKnownFl, orZero, knownCount, AngleSet.get, fillMissing]

/-- With IEEE rounding, `A = B = 1e-15` meets `0 < A, B < 180` and `A + B < 180`, yet
`180 - (A + B)` rounds to `180` and `normalizeAngles` returns `bad`. -/
theorem normalizeAnglesFl_double_tiny :
    (0 < tinyAngle ∧ tinyAngle < 180) ∧ tinyAngle + tinyAngle < 180 ∧
    roundDouble (180 - roundDouble (roundDouble (tinyAngle + tinyAngle) + 0)) = 180 ∧
    normalizeAnglesFl roundDouble
        ⟨some tinyAngle, some tinyAngle, none, none, none, none, none, none, none⟩ =
      .bad "Angles do not form a valid triangle." := by
  have hmiss : roundDouble (180 - roundDouble (roundDouble (tinyAngle + tinyAngle) + 0)) =
      180 := by
    rw [roundDouble_tiny_sum, add_zero, roundDouble_tiny_sum, roundDouble_tiny_missing]
  have hpos : (0 : ℚ) < tinyAngle := by norm_num [tinyAngle]
  have hlt : tinyAngle < 180 := by norm_num [tinyAngle]
  refine ⟨⟨hpos, hlt⟩, by norm_num [tinyAngle], hmiss, ?_⟩
  have hl : normalizeLoopFl roundDouble
      ⟨some tinyAngle, some tinyAngle, none, none, none, none, none, none, none⟩ =
      .ok ⟨some tinyAngle, some tinyAngle, none⟩ := by
    rw [normalizeLoopFl_unfold]
    simp [pairMismatchFl, workingValueFl, workingAnglesFl, valueInvalid, not_le.2 hpos,
      not_le.2 hlt]
  rw [normalizeAnglesFl_of_two roundDouble _ tinyAngle tinyAngle hl, hmiss]
  exact if_pos (Or.inr le_rfl)

/-- C1 (counterexample): `A = 60`, `Aext = 10`, `B = 60` satisfies every hypothesis of the
claim as stated (labels `A` and `B` have working value `60`, label `C` is empty,
`60 + 60 < 180`), yet `normalizeAngles` returns `bad`, because `60 + 10` is not within `EPS`
of `180`. -/
theorem normalizeAngles_two_known_counterexample :
    TwoKnown (⟨some 60, some 60, none, some 10, none, none, none, none, none⟩ : Inputs ℚ) 60 60 ∧
    ((0 : ℚ) < 60 ∧ (60 : ℚ) < 180) ∧ (60 : ℚ) + 60 < 180 ∧
    normalizeAngles (⟨some 60, some 60, none, some 10, none, none, none, none, none⟩ : Inputs ℚ)
      = .bad "Interior and exterior for A do not sum to 180." := by
  refine ⟨Or.inl ⟨rfl, rfl, rfl, rfl⟩, by norm_num, by norm_num, ?_⟩
  norm_num [normalizeAngles, normalizeLoop_unfold, pairMismatch, approxEqual, EPS,
    mismatchReason]
  decide

theorem normalizeAngles_ok_passing (i : Inputs α) (angles : AngleSet α) (reason : String)
    (h : normalizeAngles i = .ok angles reason) :
    labelFails i (.A, .Aext) = false ∧ labelFails i (.B, .Bext) = false ∧
      labelFails i (.C, .Cext) = false := by
  cases hl : normalizeLoop i with
  | error e => simp [normalizeAngles, hl] at h
  | ok ang => exact ⟨((normalizeLoop_eq_ok_iff i ang).1 hl).1, ((normalizeLoop_eq_ok_iff i ang).1 hl).2.1,
      ((normalizeLoop_eq_ok_iff i ang).1 hl).2.2.1⟩

theorem normalizeAngles_ok_range (i : Inputs α) (angles : AngleSet α) (reason : String)
    (h : normalizeAngles i = .ok angles reason) :
    ∃ a b c, angles = ⟨some a, some b, some c⟩ ∧ (0 < a ∧ a < 180) ∧ (0 < b ∧ b < 180) ∧
      (0 < c ∧ c < 180) ∧ |a + b + c - 180| ≤ EPS := by
  obtain ⟨hA, hB, hC⟩ := normalizeAngles_ok_passing i angles reason h
  rw [normalizeAngles_of_passing i hA hB hC] at h
  have rA := ((labelFails_eq_false_iff _ _).1 hA).2
  have rB := ((labelFails_eq_false_iff _ _).1 hB).2
  have rC := ((labelFails_eq_false_iff _ _).1 hC).2
  simp only [Inputs.get] at rA rB rC
  have hE : (0 : α) ≤ EPS := by unfold EPS; norm_num
  rcases hwa : workingValue i.A i.Aext with _ | a <;>
  rcases hwb : workingValue i.B i.Bext with _ | b <;>
  rcases hwc : workingValue i.C i.Cext with _ | c <;>
  simp only [hwa, hwb, hwc, knownCount, AngleSet.get, orZero, fillMissing] at h rA rB rC <;>
  simp at h rA rB rC
  · split_ifs at h with hc
    simp only [NormResult.ok.injEq] at h
    rw [not_or, not_le, not_le] at hc
    refine ⟨180 - (b + c), b, c, h.1.symm, ⟨by linarith, by linarith [rB.1, rC.1]⟩, rB, rC, ?_⟩
    rw [show 180 - (b + c) + b + c - 180 = 0 by ring]; simpa using hE
  · split_ifs at h with hc
    simp only [NormResult.ok.injEq] at h
    rw [not_or, not_le, not_le] at hc
    refine ⟨a, 180 - (a + c), c, h.1.symm, rA, ⟨by linarith, by linarith [rA.1, rC.1]⟩, rC, ?_⟩
    rw [show a + (180 - (a + c)) + c - 180 = 0 by ring]; simpa using hE
  · split_ifs at h with hc
    simp only [NormResult.ok.injEq] at h
    rw [not_or, not_le, not_le] at hc
    refine ⟨a, b, 180 - (a + b), h.1.symm, rA, rB, ⟨by linarith, by linarith [rA.1, rB.1]⟩, ?_⟩
    rw [show a + b + (180 - (a + b)) - 180 = 0 by ring]; simpa using hE
  · split_ifs at h with hc
    simp only [NormResult.ok.injEq] at h
    exact ⟨a, b, c, h.1.symm, rA, rB, rC, by simpa [approxEqual] using hc⟩

/-- C2 (amended): whenever `normalizeAngles` returns `ok`, the returned `A`, `B`, `C` are all
non-null, each strictly between `0` and `180`, and `|A + B + C - 180| ≤ EPS`; when all three
labels have a working value, an `ok` result returns that triple unchanged; and when moreover
every label passes its own checks (interior and exterior consistent, working value strictly
between `0` and `180`), the triple is rejected as `bad` exactly when `|sum - 180| > EPS` and
is returned unchanged otherwise. -/
theorem normalizeAngles_ok_triple (i : Inputs α) :
    (∀ angles reason, normalizeAngles i = .ok angles reason →
      ∃ a b c, angles = ⟨some a, some b, some c⟩ ∧ (0 < a ∧ a < 180) ∧ (0 < b ∧ b < 180) ∧
        (0 < c ∧ c < 180) ∧ |a + b + c - 180| ≤ EPS) ∧
    (∀ a b c, workingValue i.A i.Aext = some a → workingValue i.B i.Bext = some b →
      workingValue i.C i.Cext = some c →
      (∀ angles reason, normalizeAngles i = .ok angles reason →
        angles = ⟨some a, some b, some c⟩) ∧
      (pairConsistent i.A i.Aext → pairConsistent i.B i.Bext → pairConsistent i.C i.Cext →
        (0 < a ∧ a < 180) → (0 < b ∧ b < 180) → (0 < c ∧ c < 180) →
        ((∃ reason, normalizeAngles i = .bad reason) ↔ EPS < |a + b + c - 180|) ∧
        (EPS < |a + b + c - 180| →
          normalizeAngles i = .bad "Angles do not sum to 180 degrees.") ∧
        (|a + b + c - 180| ≤ EPS →
          normalizeAngles i = .ok ⟨some a, some b, some c⟩ ""))) := by
  refine ⟨normalizeAngles_ok_range i, ?_⟩
  intro a b c hwa hwb hwc
  have key : ∀ (hA : labelFails i (.A, .Aext) = false) (hB : labelFails i (.B, .Bext) = false)
      (hC : labelFails i (.C, .Cext) = false),
      normalizeAngles i = if EPS < |a + b + c - 180| then
        .bad "Angles do not sum to 180 degrees." else .ok ⟨some a, some b, some c⟩ "" := by
    intro hA hB hC
    rw [normalizeAngles_of_passing i hA hB hC]
    simp only [hwa, hwb, hwc, knownCount, AngleSet.get, orZero, approxEqual]
    by_cases hlt : EPS < |a + b + c - 180|
    · simp [hlt]
    · simp [hlt, not_lt.1 hlt]
  constructor
  · intro angles reason h
    obtain ⟨hA, hB, hC⟩ := normalizeAngles_ok_passing i angles reason h
    rw [key hA hB hC] at h
    split_ifs at h
    simp only [NormResult.ok.injEq] at h
    exact h.1.symm
  · intro cA cB cC rA rB rC
    have hA : labelFails i (.A, .Aext) = false :=
      (labelFails_eq_false_iff _ _).2 ⟨cA, by simp [Inputs.get, hwa]; exact rA⟩
    have hB : labelFails i (.B, .Bext) = false :=
      (labelFails_eq_false_iff _ _).2 ⟨cB, by simp [Inputs.get, hwb]; exact rB⟩
    have hC : labelFails i (.C, .Cext) = false :=
      (labelFails_eq_false_iff _ _).2 ⟨cC, by simp [Inputs.get, hwc]; exact rC⟩
    rw [key hA hB hC]
    refine ⟨?_, ?_, ?_⟩
    · by_cases hlt : EPS < |a + b + c - 180| <;> simp [hlt]
    · intro hlt; simp [hlt]
    · intro hle; simp [not_lt.2 hle]

/-- C2 (witness): the triple `60, 60, 60` is returned unchanged, and `60, 60, 61` is rejected. -/
theorem normalizeAngles_ok_triple_witness :
    normalizeAngles (⟨some 60, some 60, some 60, none, none, none, none, none, none⟩ : Inputs ℚ)
      = .ok ⟨some 60, some 60, some 60⟩ "" ∧
    normalizeAngles (⟨some 60, some 60, some 61, none, none, none, none, none, none⟩ : Inputs ℚ)
      = .bad "Angles do not sum to 180 degrees." :=
  ⟨(((normalizeAngles_ok_triple
      (⟨some 60, some 60, some 60, none, none, none, none, none, none⟩ : Inputs ℚ)).2
      60 60 60 rfl rfl rfl).2 (by simp [pairConsistent]) (by simp [pairConsistent])
      (by simp [pairConsistent]) (by norm_num) (by norm_num) (by norm_num)).2.2
      (by norm_num [EPS]),
   (((normalizeAngles_ok_triple
      (⟨some 60, some 60, some 61, none, none, none, none, none, none⟩ : Inputs ℚ)).2
      60 60 61 rfl rfl rfl).2 (by simp [pairConsistent]) (by simp [pairConsistent])
      (by simp [pairConsistent]) (by norm_num) (by norm_num) (by norm_num)).2.1
      (by norm_num [EPS])⟩

/-- C2 (counterexample): with all three labels given, `A = B = C = 60` and `Aext = 10` is
rejected as `bad` although the sum is exactly `180`; so is `A = 100`, `B = 100`, `C = -20`.
The rejection is therefore not equivalent to `|sum - 180| > EPS`. -/
theorem normalizeAngles_three_known_counterexample :
    (workingValue (some (60 : ℚ)) (some 10) = some 60 ∧
      workingValue (some (60 : ℚ)) none = some 60 ∧
      normalizeAngles (⟨some 60, some 60, some 60, some 10, none, none, none, none, none⟩ :
        Inputs ℚ) = .bad "Interior and exterior for A do not sum to 180." ∧
      ¬ ((EPS : ℚ) < |60 + 60 + 60 - 180|)) ∧
    (workingValue (some (100 : ℚ)) none = some 100 ∧
      workingValue (some (-20 : ℚ)) none = some (-20) ∧
      normalizeAngles (⟨some 100, some 100, some (-20), none, none, none, none, none, none⟩ :
        Inputs ℚ) = .bad "Angle C is not valid." ∧
      ¬ ((EPS : ℚ) < |100 + 100 + -20 - 180|)) := by
  refine ⟨⟨rfl, rfl, ?_, by norm_num [EPS]⟩, ⟨rfl, rfl, ?_, by norm_num [EPS]⟩⟩
  · norm_num [normalizeAngles, normalizeLoop_unfold, pairMismatch, approxEqual, EPS,
      mismatchReason]
    decide
  · norm_num [normalizeAngles, normalizeLoop_unfold, pairMismatch, approxEqual, EPS,
      workingValue, valueInvalid, invalidReason]
    decide

end AngleTheorems

/-! ## `solveFromAngles`: the all-bad collapse -/

section ResultTheorems

variable {α : Type} [LinearOrderedField α]

theorem Fields.set_apply {β : Type} (fields : Fields β) (key : FieldKey) (field : Field β)
    (k : FieldKey) : fields.set key field k = if k = key then some field else fields k := rfl

theorem makeAllBad_fields {β : Type} (reason : String) (k : FieldKey) :
    (makeAllBad reason : SolveResult β).fields k = some ⟨"bad", none, some reason⟩ := by
  cases k <;> simp [makeAllBad, FIELD_KEYS, Fields.set]

theorem makeAllNA_fields {β : Type} (reason : String) (k : FieldKey) :
    (makeAllNA reason : SolveResult β).fields k = some ⟨"na", none, some reason⟩ := by
  cases k <;> simp [makeAllNA, FIELD_KEYS, Fields.set]

theorem normalizeLoop_error_of_labelFails (i : Inputs α) (pair : FieldKey × FieldKey)
    (hp : pair ∈ checks) (hf : labelFails i pair = true) :
    ∃ reason, normalizeLoop i = .error reason := by
  cases hl : normalizeLoop i with
  | error e => exact ⟨e, rfl⟩
  | ok ang =>
    obtain ⟨hA, hB, hC, -⟩ := (normalizeLoop_eq_ok_iff i ang).1 hl
    simp only [checks, List.mem_cons, List.mem_singleton, List.not_mem_nil, or_false] at hp
    rcases hp with rfl | rfl | rfl <;> simp_all

theorem normalizeLoop_first_mismatch (i : Inputs α) (pair : FieldKey × FieldKey)
    (hp : pair ∈ checks) (hm : pairMismatch (i.get pair.1) (i.get pair.2) = true)
    (hfirst : ∀ q ∈ checks.takeWhile (fun q => decide (q ≠ pair)), labelFails i q = false) :
    normalizeLoop i = .error (mismatchReason pair.1) := by
  rw [normalizeLoop_unfold]
  simp only [checks, List.mem_cons, List.mem_singleton, List.not_mem_nil, or_false] at hp
  rcases hp with rfl | rfl | rfl
  · simp only [Inputs.get] at hm
    simp [hm]
  · have h1 := hfirst (.A, .Aext) (by simp [checks, List.takeWhile])
    simp only [labelFails, Inputs.get, Bool.or_eq_false_iff] at h1 hm
    simp [hm, h1.1, h1.2]
  · have h1 := hfirst (.A, .Aext) (by simp [checks, List.takeWhile])
    have h2 := hfirst (.B, .Bext) (by simp [checks, List.takeWhile])
    simp only [labelFails, Inputs.get, Bool.or_eq_false_iff] at h1 h2 hm
    simp [hm, h1.1, h1.2, h2.1, h2.2]

/-- C3: when some label of `A`, `B`, `C` has both its interior `x` and its exterior `e`
present with `|x + e - 180| > EPS`, `solveFromAngles` returns status `Bad value`, all nine
fields tagged `bad`, and `previewAngles` null, whatever the other inputs are; and when no
earlier label (in the order `A`, `B`, `C`) fails a check, the reason names the label. -/
theorem solveFromAngles_mismatch (m : JSMath α) (i : Inputs α) (pair : FieldKey × FieldKey)
    (hp : pair ∈ checks) (x e : α) (hx : i.get pair.1 = some x) (he : i.get pair.2 = some e)
    (hbad : EPS < |x + e - 180|) :
    (solveFromAngles m i).status = "Bad value" ∧
    (∀ k, (solveFromAngles m i).fields k =
      some ⟨"bad", none, some (solveFromAngles m i).statusReason⟩) ∧
    (solveFromAngles m i).previewAngles = none ∧
    ((∀ q ∈ checks.takeWhile (fun q => decide (q ≠ pair)), labelFails i q = false) →
      (solveFromAngles m i).statusReason =
        "Interior and exterior for " ++ pair.1.name ++ " do not sum to 180.") := by
  have hm : pairMismatch (i.get pair.1) (i.get pair.2) = true := by
    simp [hx, he, pairMismatch, approxEqual, hbad]
  have hf : labelFails i pair = true := by simp [labelFails, hm]
  obtain ⟨r, hr⟩ := normalizeLoop_error_of_labelFails i pair hp hf
  have hs : solveFromAngles m i = makeAllBad r := by
    simp [solveFromAngles, normalizeAngles, hr]
  refine ⟨by rw [hs]; rfl, fun k => by rw [hs, makeAllBad_fields]; rfl, by rw [hs]; rfl, ?_⟩
  intro hfirst
  have hr2 := normalizeLoop_first_mismatch i pair hp hm hfirst
  rw [hr] at hr2
  rw [hs]
  simp only [Except.error.injEq] at hr2
  rw [hr2]
  rfl

/-- C3 (witness): `A = 100`, `Aext = 70` and nothing else. -/
theorem solveFromAngles_mismatch_witness :
    (solveFromAngles realMath
        ⟨some 100, none, none, some 70, none, none, none, none, none⟩).status = "Bad value" ∧
    (∀ k, (solveFromAngles realMath
        ⟨some 100, none, none, some 70, none, none, none, none, none⟩).fields k =
      some ⟨"bad", none, some "Interior and exterior for A do not sum to 180."⟩) ∧
    (solveFromAngles realMath
        ⟨some 100, none, none, some 70, none, none, none, none, none⟩).previewAngles = none := by
  have h := solveFromAngles_mismatch realMath
    ⟨some 100, none, none, some 70, none, none, none, none, none⟩ (.A, .Aext)
    (by simp [checks]) 100 70 rfl rfl (by norm_num [EPS])
  have hr := h.2.2.2 (by simp [checks, List.takeWhile])
  refine ⟨h.1, fun k => ?_, h.2.2.1⟩
  rw [h.2.1 k, hr]
  simp [FieldKey.name]

end ResultTheorems

/-! ## `computeSides`: the law of sines -/

section SideTheorems

variable {α : Type} [LinearOrderedField α]

theorem providedSide_of_firstSide {β : Type} (i : Inputs β) (L : FieldKey) (s : β)
    (h : firstSide i = some (L, s)) :
    providedSide i = some L ∧ i.get L = some s ∧ (L = .a ∨ L = .b ∨ L = .c) := by
  rcases ha : i.a with _ | a <;> rcases hb : i.b with _ | b <;> rcases hc : i.c with _ | c <;>
    simp [firstSide, ha, hb, hc] at h <;>
    obtain ⟨rfl, rfl⟩ := h <;>
    simp [providedSide, Inputs.get, ha, hb, hc]

theorem providedSide_eq_none_iff {β : Type} (i : Inputs β) :
    providedSide i = none ↔ i.a = none ∧ i.b = none ∧ i.c = none := by
  rcases ha : i.a with _ | a <;> rcases hb : i.b with _ | b <;> rcases hc : i.c with _ | c <;>
    simp [providedSide, Inputs.get, ha, hb, hc]

theorem firstSide_eq_none_iff {β : Type} (i : Inputs β) :
    firstSide i = none ↔ i.a = none ∧ i.b = none ∧ i.c = none := by
  rcases ha : i.a with _ | a <;> rcases hb : i.b with _ | b <;> rcases hc : i.c with _ | c <;>
    simp [firstSide, ha, hb, hc]

theorem computeSides_of_firstSide (m : JSMath α) (A B C : α) (i : Inputs α) (L : FieldKey)
    (s : α) (hL : firstSide i = some (L, s)) (hs : 0 < s)
    (hsin : m.sin (degToRad m (oppositeAngle A B C L)) ≠ 0) :
    computeSides m i ⟨some A, some B, some C⟩ =
      .ok ⟨s / m.sin (degToRad m (oppositeAngle A B C L)) * m.sin (degToRad m A),
        s / m.sin (degToRad m (oppositeAngle A B C L)) * m.sin (degToRad m B),
        s / m.sin (degToRad m (oppositeAngle A B C L)) * m.sin (degToRad m C)⟩ := by
  obtain ⟨hp, hg, hcase⟩ := providedSide_of_firstSide i L s hL
  rcases hcase with rfl | rfl | rfl <;>
    simp only [Inputs.get] at hg <;>
    simp only [oppositeAngle] at hsin ⊢ <;>
    simp [computeSides, hp, hg, Inputs.get, orZero, not_le.2 hs, jsDiv, hsin]

theorem sin_deg_pos (A : ℝ) (hA : 0 < A ∧ A < 180) : 0 < Real.sin (A * Real.pi / 180) := by
  have hpi := Real.pi_pos
  apply Real.sin_pos_of_pos_of_lt_pi
  · exact div_pos (mul_pos hA.1 hpi) (by norm_num)
  · rw [div_lt_iff₀ (by norm_num)]
    nlinarith [hA.2]

theorem computeSides_exact_law_of_sines (A B C : ℝ) (hA : 0 < A ∧ A < 180)
    (hB : 0 < B ∧ B < 180) (hC : 0 < C ∧ C < 180) (i : Inputs ℝ) (L : FieldKey) (s : ℝ)
    (hL : firstSide i = some (L, s)) (hs : 0 < s) :
    ∃ a b c, computeSides realMath i ⟨some A, some B, some C⟩ = .ok ⟨a, b, c⟩ ∧
      a / Real.sin (A * Real.pi / 180) = s / Real.sin (oppositeAngle A B C L * Real.pi / 180) ∧
      b / Real.sin (B * Real.pi / 180) = s / Real.sin (oppositeAngle A B C L * Real.pi / 180) ∧
      c / Real.sin (C * Real.pi / 180) = s / Real.sin (oppositeAngle A B C L * Real.pi / 180) ∧
      oppositeAngle a b c L = s := by
  have sA := sin_deg_pos A hA
  have sB := sin_deg_pos B hB
  have sC := sin_deg_pos C hC
  have hcase := (providedSide_of_firstSide i L s hL).2.2
  have sL : 0 < Real.sin (oppositeAngle A B C L * Real.pi / 180) := by
    rcases hcase with rfl | rfl | rfl <;> simpa [oppositeAngle]
  refine ⟨_, _, _, computeSides_of_firstSide realMath A B C i L s hL hs (ne_of_gt sL), ?_⟩
  simp only [realMath, degToRad]
  refine ⟨by field_simp; ring, by field_simp; ring, by field_simp; ring, ?_⟩
  rcases hcase with rfl | rfl | rfl <;> simp only [oppositeAngle] <;> field_simp

/-- With `fl = id` and no overflow the rounded version is `computeSides` itself. -/
theorem computeSidesFl_exact (m : JSMath α) (i : Inputs α) (angles : AngleSet α) :
    computeSidesFl id (fun _ => true) m i angles = computeSides m i angles := by
  simp [computeSidesFl, computeSides, degToRadFl, degToRad, jsDivFl, jsDiv]

theorem computeSidesFl_of_firstSide (fl : α → α) (finite : α → Bool) (m : JSMath α)
    (A B C : α) (i : Inputs α) (L : FieldKey) (s : α) (hL : firstSide i = some (L, s))
    (hs : 0 < s) :
    computeSidesFl fl finite m i ⟨some A, some B, some C⟩ =
      match jsDivFl fl finite s (m.sin (degToRadFl fl m (oppositeAngle A B C L))) with
      | none => .bad "Cannot compute side lengths with given values."
      | some k =>
        .ok { a := fl (k * m.sin (degToRadFl fl m A))
              b := fl (k * m.sin (degToRadFl fl m B))
              c := fl (k * m.sin (degToRadFl fl m C)) } := by
  obtain ⟨hp, hg, hcase⟩ := providedSide_of_firstSide i L s hL
  rcases hcase with rfl | rfl | rfl <;>
    simp only [Inputs.get] at hg <;>
    simp [computeSidesFl, hp, hg, Inputs.get, orZero, not_le.2 hs, oppositeAngle]

theorem roundDouble_zero {R : Type} [LinearOrderedField R] [FloorRing R] :
    roundDouble (0 : R) = 0 := by
  simp [roundDouble, roundHalfEven]

theorem ulpExponent_subnormal {R : Type} [LinearOrderedField R] [FloorRing R] (q : R) (k : ℤ)
    (h1 : (2 : R) ^ k ≤ |q|) (h2 : |q| < (2 : R) ^ (k + 1)) (hk : k ≤ -1022) :
    ulpExponent q = -1074 := by
  have hpos : 0 < |q| := lt_of_lt_of_le (zpow_pos (by norm_num) k) h1
  have hlog : Int.log 2 |q| = k := by
    have hle : k ≤ Int.log 2 |q| :=
      (Int.zpow_le_iff_le_log (by norm_num) hpos).1 (by exact_mod_cast h1)
    have hlt : Int.log 2 |q| < k + 1 :=
      (Int.lt_zpow_iff_log_lt (by norm_num) hpos).1 (by exact_mod_cast h2)
    omega
  unfold ulpExponent
  rw [hlog]
  exact max_eq_right (by omega)

theorem roundDouble_subnormal_eq {R : Type} [LinearOrderedField R] [FloorRing R] (q : R)
    (k n : ℤ) (h1 : (2 : R) ^ k ≤ |q|) (h2 : |q| < (2 : R) ^ (k + 1)) (hk : k ≤ -1022)
    (hn : |q / 2 ^ (-1074 : ℤ) - n| < 1 / 2) : roundDouble q = n * 2 ^ (-1074 : ℤ) := by
  unfold roundDouble
  rw [ulpExponent_subnormal q k h1 h2 hk, roundHalfEven_eq _ n hn]

theorem degToRadFl_double_least :
    degToRadFl roundDouble doubleMath ((2 : ℝ) ^ (-1074 : ℤ)) = 0 := by
  have hu : (0 : ℝ) < (2 : ℝ) ^ (-1074 : ℤ) := zpow_pos (by norm_num) _
  have e1 : (2 : ℝ) ^ (-1073 : ℤ) = 2 * (2 : ℝ) ^ (-1074 : ℤ) := by
    rw [show (-1073 : ℤ) = 1 + -1074 by norm_num, zpow_add₀ (by norm_num), zpow_one]
  have e2 : (2 : ℝ) ^ ((-1073 : ℤ) + 1) = 4 * (2 : ℝ) ^ (-1074 : ℤ) := by
    rw [show (-1073 : ℤ) + 1 = 2 + -1074 by norm_num, zpow_add₀ (by norm_num)]
    norm_num
  have e3 : (2 : ℝ) ^ (-1080 : ℤ) = (2 : ℝ) ^ (-1074 : ℤ) / 64 := by
    rw [show (-1080 : ℤ) = -1074 + -6 by norm_num, zpow_add₀ (by norm_num)]
    norm_num
  have e4 : (2 : ℝ) ^ ((-1080 : ℤ) + 1) = (2 : ℝ) ^ (-1074 : ℤ) / 32 := by
    rw [show (-1080 : ℤ) + 1 = -1074 + -5 by norm_num, zpow_add₀ (by norm_num)]
    norm_num
  have s1 : roundDouble ((2 : ℝ) ^ (-1074 : ℤ) * doublePI) = 3 * (2 : ℝ) ^ (-1074 : ℤ) := by
    have hq : (0 : ℝ) < (2 : ℝ) ^ (-1074 : ℤ) * doublePI := mul_pos hu (by unfold doublePI; positivity)
    have h := roundDouble_subnormal_eq ((2 : ℝ) ^ (-1074 : ℤ) * doublePI) (-1073) 3
      (by rw [abs_of_pos hq, e1]; unfold doublePI; nlinarith)
      (by rw [abs_of_pos hq, e2]; unfold doublePI; nlinarith)
      (by norm_num)
      (by
        rw [show (2 : ℝ) ^ (-1074 : ℤ) * doublePI / (2 : ℝ) ^ (-1074 : ℤ) = doublePI by
          field_simp]
        unfold doublePI
        rw [abs_lt]
        constructor <;> norm_num)
    rw [h]
    norm_num
  have s2 : roundDouble (3 * (2 : ℝ) ^ (-1074 : ℤ) / 180) = 0 := by
    have hq : (0 : ℝ) < 3 * (2 : ℝ) ^ (-1074 : ℤ) / 180 := by positivity
    have h := roundDouble_subnormal_eq (3 * (2 : ℝ) ^ (-1074 : ℤ) / 180) (-1080) 0
      (by rw [abs_of_pos hq, e3]; linarith)
      (by rw [abs_of_pos hq, e4]; linarith)
      (by norm_num)
      (by
        rw [show 3 * (2 : ℝ) ^ (-1074 : ℤ) / 180 / (2 : ℝ) ^ (-1074 : ℤ) = 1 / 60 by
          field_simp; ring]
        rw [abs_lt]
        constructor <;> norm_num)
    rw [h]
    norm_num
  unfold degToRadFl
  show roundDouble (roundDouble ((2 : ℝ) ^ (-1074 : ℤ) * doublePI) / 180) = 0
  rw [s1, s2]

/-- C4 (amended): for angles `A`, `B`, `C` and a first present side `s > 0` on label `L`,
`computeSides` returns `ok` exactly when the scale `k = s / sin (angle of L)`, as the program
computes it, is finite, with the sides `k * sin A`, `k * sin B`, `k * sin C` as the program
computes them, and returns `Cannot compute side lengths` otherwise; the rounding `fl`, the
finiteness test and the `Math` functions are arbitrary. When every operation and the sine
are exact and the angles lie strictly between `0` and `180` degrees, `k` is finite, the sides
satisfy `a / sin A = b / sin B = c / sin C = s / sin (angle of L)`, and the side on `L` is
exactly `s`. -/
theorem computeSides_law_of_sines (fl : ℝ → ℝ) (finite : ℝ → Bool) (m : JSMath ℝ)
    (A B C : ℝ) (i : Inputs ℝ) (L : FieldKey) (s : ℝ)
    (hL : firstSide i = some (L, s)) (hs : 0 < s) :
    (∀ k, jsDivFl fl finite s (m.sin (degToRadFl fl m (oppositeAngle A B C L))) = some k →
      computeSidesFl fl finite m i ⟨some A, some B, some C⟩ =
        .ok { a := fl (k * m.sin (degToRadFl fl m A))
              b := fl (k * m.sin (degToRadFl fl m B))
              c := fl (k * m.sin (degToRadFl fl m C)) }) ∧
    (jsDivFl fl finite s (m.sin (degToRadFl fl m (oppositeAngle A B C L))) = none →
      computeSidesFl fl finite m i ⟨some A, some B, some C⟩ =
        .bad "Cannot compute side lengths with given values.") ∧
    ((0 < A ∧ A < 180) → (0 < B ∧ B < 180) → (0 < C ∧ C < 180) →
      ∃ a b c, computeSidesFl id (fun _ => true) realMath i ⟨some A, some B, some C⟩ =
          .ok ⟨a, b, c⟩ ∧
        a / Real.sin (A * Real.pi / 180) =
          s / Real.sin (oppositeAngle A B C L * Real.pi / 180) ∧
        b / Real.sin (B * Real.pi / 180) =
          s / Real.sin (oppositeAngle A B C L * Real.pi / 180) ∧
        c / Real.sin (C * Real.pi / 180) =
          s / Real.sin (oppositeAngle A B C L * Real.pi / 180) ∧
        oppositeAngle a b c L = s) := by
  refine ⟨?_, ?_, ?_⟩
  · intro k hk
    rw [computeSidesFl_of_firstSide fl finite m A B C i L s hL hs, hk]
  · intro hk
    rw [computeSidesFl_of_firstSide fl finite m A B C i L s hL hs, hk]
  · intro hA hB hC
    rw [computeSidesFl_exact]
    exact computeSides_exact_law_of_sines A B C hA hB hC i L s hL hs

/-- C4 (witness): `A = 90`, `B = 45`, `C = 45` and `a = 5`, in exact arithmetic. -/
theorem computeSides_law_of_sines_witness :
    ∃ a b c, computeSidesFl id (fun _ => true) realMath
        ⟨none, none, none, none, none, none, some 5, none, none⟩
        ⟨some 90, some 45, some 45⟩ = .ok ⟨a, b, c⟩ ∧
      a / Real.sin (90 * Real.pi / 180) = 5 / Real.sin (90 * Real.pi / 180) ∧
      b / Real.sin (45 * Real.pi / 180) = 5 / Real.sin (90 * Real.pi / 180) ∧
      c / Real.sin (45 * Real.pi / 180) = 5 / Real.sin (90 * Real.pi / 180) ∧
      a = 5 :=
  (computeSides_law_of_sines id (fun _ => true) realMath 90 45 45
    ⟨none, none, none, none, none, none, some 5, none, none⟩ .a 5 rfl (by norm_num)).2.2
    (by norm_num) (by norm_num) (by norm_num)

/-- C4 (counterexample): in double arithmetic, with the angles `A = 5e-324` (the least
positive double, `2 ^ -1074`), `B = 60`, `C = 120`, each strictly between `0` and `180`, and
the side `a = 1`, the angle in radians rounds to `0`, its sine is `0`, the scale `1 / 0` is
not finite, and `computeSides` returns `Cannot compute side lengths`. -/
theorem computeSides_double_counterexample :
    ((0 : ℝ) < 2 ^ (-1074 : ℤ) ∧ (2 : ℝ) ^ (-1074 : ℤ) < 180) ∧
    ((0 : ℝ) < 60 ∧ (60 : ℝ) < 180) ∧ ((0 : ℝ) < 120 ∧ (120 : ℝ) < 180) ∧
    firstSide (⟨none, none, none, none, none, none, some 1, none, none⟩ : Inputs ℝ)
      = some (.a, 1) ∧
    computeSidesFl roundDouble doubleFinite doubleMath
        ⟨none, none, none, none, none, none, some 1, none, none⟩
        ⟨some (2 ^ (-1074 : ℤ)), some 60, some 120⟩ =
      .bad "Cannot compute side lengths with given values." := by
  have hu : (0 : ℝ) < (2 : ℝ) ^ (-1074 : ℤ) := zpow_pos (by norm_num) _
  have hlt : (2 : ℝ) ^ (-1074 : ℤ) < 180 :=
    lt_of_le_of_lt (zpow_le_one_of_nonpos₀ (by norm_num) (by norm_num)) (by norm_num)
  refine ⟨⟨hu, hlt⟩, by norm_num, by norm_num, rfl, ?_⟩
  rw [computeSidesFl_of_firstSide roundDouble doubleFinite doubleMath ((2 : ℝ) ^ (-1074 : ℤ))
    60 120 ⟨none, none, none, none, none, none, some 1, none, none⟩ .a 1 rfl (by norm_num)]
  have hsin : doubleMath.sin (degToRadFl roundDouble doubleMath
      (oppositeAngle ((2 : ℝ) ^ (-1074 : ℤ)) 60 120 FieldKey.a)) = 0 := by
    show roundDouble (Real.sin (degToRadFl roundDouble doubleMath ((2 : ℝ) ^ (-1074 : ℤ)))) = 0
    rw [degToRadFl_double_least, Real.sin_zero, roundDouble_zero]
  rw [hsin]
  simp [jsDivFl]

end SideTheorems

/-! ## `solveFromPoints`: the angles of a triangle -/

section PointTheorems

theorem angle_complex_eq (a b c d : ℝ) :
    InnerProductGeometry.angle (⟨a, b⟩ : ℂ) ⟨c, d⟩ =
      Real.arccos ((a * c + b * d) / (Real.sqrt (a ^ 2 + b ^ 2) * Real.sqrt (c ^ 2 + d ^ 2))) := by
  unfold InnerProductGeometry.angle
  congr 2
  · simp [Complex.inner]
  · simp [Complex.norm_eq_abs, Complex.abs_apply, Complex.normSq_apply, sq]

theorem cos_ratio_bounds (a b c d : ℝ) (hcross : a * d - b * c ≠ 0) :
    Real.sqrt (a ^ 2 + b ^ 2) * Real.sqrt (c ^ 2 + d ^ 2) ≠ 0 ∧
    -1 < (a * c + b * d) / (Real.sqrt (a ^ 2 + b ^ 2) * Real.sqrt (c ^ 2 + d ^ 2)) ∧
    (a * c + b * d) / (Real.sqrt (a ^ 2 + b ^ 2) * Real.sqrt (c ^ 2 + d ^ 2)) < 1 := by
  have hsq : (Real.sqrt (a ^ 2 + b ^ 2) * Real.sqrt (c ^ 2 + d ^ 2)) ^ 2 =
      (a * c + b * d) ^ 2 + (a * d - b * c) ^ 2 := by
    rw [mul_pow, Real.sq_sqrt (by positivity), Real.sq_sqrt (by positivity)]
    ring
  have hcp : 0 < (a * d - b * c) ^ 2 := by positivity
  have hn : 0 ≤ Real.sqrt (a ^ 2 + b ^ 2) * Real.sqrt (c ^ 2 + d ^ 2) :=
    mul_nonneg (Real.sqrt_nonneg _) (Real.sqrt_nonneg _)
  have hlt : |a * c + b * d| < Real.sqrt (a ^ 2 + b ^ 2) * Real.sqrt (c ^ 2 + d ^ 2) := by
    rw [← abs_of_nonneg hn]
    apply sq_lt_sq.1
    rw [hsq]
    linarith
  have hpos : 0 < Real.sqrt (a ^ 2 + b ^ 2) * Real.sqrt (c ^ 2 + d ^ 2) :=
    lt_of_le_of_lt (abs_nonneg _) hlt
  rw [abs_lt] at hlt
  refine ⟨ne_of_gt hpos, ?_, ?_⟩
  · rw [lt_div_iff₀ hpos]; linarith [hlt.1]
  · rw [div_lt_iff₀ hpos]; linarith [hlt.2]

theorem angleAt_real (p p1 p2 : Point ℝ)
    (hcross : (p1.x - p.x) * (p2.y - p.y) - (p1.y - p.y) * (p2.x - p.x) ≠ 0) :
    angleAt realMath p p1 p2 =
      some (EuclideanGeometry.angle (⟨p1.x, p1.y⟩ : ℂ) ⟨p.x, p.y⟩ ⟨p2.x, p2.y⟩ * 180 / Real.pi) ∧
    0 < EuclideanGeometry.angle (⟨p1.x, p1.y⟩ : ℂ) ⟨p.x, p.y⟩ ⟨p2.x, p2.y⟩ ∧
    EuclideanGeometry.angle (⟨p1.x, p1.y⟩ : ℂ) ⟨p.x, p.y⟩ ⟨p2.x, p2.y⟩ < Real.pi := by
  obtain ⟨hd, hlo, hhi⟩ := cos_ratio_bounds _ _ _ _ hcross
  have hang : EuclideanGeometry.angle (⟨p1.x, p1.y⟩ : ℂ) ⟨p.x, p.y⟩ ⟨p2.x, p2.y⟩ =
      Real.arccos (((p1.x - p.x) * (p2.x - p.x) + (p1.y - p.y) * (p2.y - p.y)) /
        (Real.sqrt ((p1.x - p.x) ^ 2 + (p1.y - p.y) ^ 2) *
          Real.sqrt ((p2.x - p.x) ^ 2 + (p2.y - p.y) ^ 2))) := by
    rw [← angle_complex_eq]
    rfl
  rw [hang]
  refine ⟨?_, Real.arccos_pos.2 hhi, ?_⟩
  · simp only [angleAt, realMath, if_neg hd]
    rw [max_eq_right hlo.le, min_eq_right hhi.le]
  · exact lt_of_le_of_ne (Real.arccos_le_pi _) (fun h => absurd (Real.arccos_eq_pi.1 h) (not_le.2 hlo))

/-- In exact real arithmetic (`realMath`, no rounding), three points with twice-area at least
`0.01` have defined angles, each strictly between `0` and `180` degrees, summing to exactly
`180`, and `solveFromPoints` returns status `OK` with these angles in its fields and in
`previewAngles`. -/
theorem solveFromPoints_exact_ok (P1 P2 P3 : Point ℝ) (rest : List (Point ℝ))
    (harea : 1 / 100 ≤
      |(P2.x - P1.x) * (P3.y - P1.y) - (P2.y - P1.y) * (P3.x - P1.x)|) :
    ∃ A B C, angleAt realMath P1 P2 P3 = some A ∧ angleAt realMath P2 P1 P3 = some B ∧
      angleAt realMath P3 P1 P2 = some C ∧
      (0 < A ∧ A < 180) ∧ (0 < B ∧ B < 180) ∧ (0 < C ∧ C < 180) ∧
      A + B + C = 180 ∧ |A + B + C - 180| ≤ 3 / 2 ∧
      (solveFromPoints realMath (P1 :: P2 :: P3 :: rest)).status = "OK" ∧
      (solveFromPoints realMath (P1 :: P2 :: P3 :: rest)).fields .A = some (Field.ofValue A) ∧
      (solveFromPoints realMath (P1 :: P2 :: P3 :: rest)).fields .B = some (Field.ofValue B) ∧
      (solveFromPoints realMath (P1 :: P2 :: P3 :: rest)).fields .C = some (Field.ofValue C) ∧
      (solveFromPoints realMath (P1 :: P2 :: P3 :: rest)).previewAngles =
        some ⟨some A, some B, some C⟩ := by
  have hcross : (P2.x - P1.x) * (P3.y - P1.y) - (P2.y - P1.y) * (P3.x - P1.x) ≠ 0 := by
    intro h
    rw [h, abs_zero] at harea
    norm_num at harea
  have hpi := Real.pi_pos
  obtain ⟨eA, pA, qA⟩ := angleAt_real P1 P2 P3 hcross
  obtain ⟨eB, pB, qB⟩ := angleAt_real P2 P1 P3
    (fun h => hcross (by linear_combination -h))
  obtain ⟨eC, pC, qC⟩ := angleAt_real P3 P1 P2
    (fun h => hcross (by linear_combination h))
  have h21 : (⟨P2.x, P2.y⟩ : ℂ) ≠ ⟨P1.x, P1.y⟩ := by
    intro h
    rw [Complex.mk.injEq] at h
    exact hcross (by rw [h.1, h.2]; ring)
  have h31 : (⟨P3.x, P3.y⟩ : ℂ) ≠ ⟨P1.x, P1.y⟩ := by
    intro h
    rw [Complex.mk.injEq] at h
    exact hcross (by rw [h.1, h.2]; ring)
  have hsumpi := EuclideanGeometry.angle_add_angle_add_angle_eq_pi h21 h31
  rw [EuclideanGeometry.angle_comm (⟨P2.x, P2.y⟩ : ℂ) ⟨P3.x, P3.y⟩ ⟨P1.x, P1.y⟩,
    EuclideanGeometry.angle_comm (⟨P3.x, P3.y⟩ : ℂ) ⟨P1.x, P1.y⟩ ⟨P2.x, P2.y⟩] at hsumpi
  set a := EuclideanGeometry.angle (⟨P2.x, P2.y⟩ : ℂ) ⟨P1.x, P1.y⟩ ⟨P3.x, P3.y⟩ with ha
  set b := EuclideanGeometry.angle (⟨P1.x, P1.y⟩ : ℂ) ⟨P2.x, P2.y⟩ ⟨P3.x, P3.y⟩ with hb
  set c := EuclideanGeometry.angle (⟨P1.x, P1.y⟩ : ℂ) ⟨P3.x, P3.y⟩ ⟨P2.x, P2.y⟩ with hc
  have deg : ∀ t : ℝ, 0 < t → t < Real.pi → 0 < t * 180 / Real.pi ∧ t * 180 / Real.pi < 180 := by
    intro t h0 h1
    refine ⟨by positivity, ?_⟩
    rw [div_lt_iff₀ hpi]
    nlinarith
  have hsum : a * 180 / Real.pi + b * 180 / Real.pi + c * 180 / Real.pi = 180 := by
    have : a * 180 / Real.pi + b * 180 / Real.pi + c * 180 / Real.pi =
        (b + c + a) * 180 / Real.pi := by ring
    rw [this, hsumpi]
    field_simp
  have vA := deg a pA qA
  have vB := deg b pB qB
  have vC := deg c pC qC
  refine ⟨_, _, _, eA, eB, eC, vA, vB, vC, hsum, by rw [hsum]; norm_num, ?_⟩
  have hnot : ¬ |(P2.x - P1.x) * (P3.y - P1.y) - (P2.y - P1.y) * (P3.x - P1.x)| < 1 / 100 :=
    not_lt.2 harea
  simp only [solveFromPoints, if_neg hnot, eA, eB, eC, isAngleValid, orZero, hsum]
  have h32 : ¬ ((3 : ℝ) / 2 < 0) := by norm_num
  simp [vA.1, vA.2, vB.1, vB.2, vC.1, vC.2, h32, Fields.set_apply]

/-- With `fl = id` the rounded `angleAt` is the exact one. -/
theorem angleAtFl_id {α : Type} [LinearOrderedField α] (m : JSMath α) (p p1 p2 : Point α) :
    angleAtFl id m p p1 p2 = angleAt m p p1 p2 := rfl

/-- With `fl = id` the rounded `solveFromPoints` is the exact one. -/
theorem solveFromPointsFl_id {α : Type} [LinearOrderedField α] (m : JSMath α)
    (points : List (Point α)) :
    solveFromPointsFl id m points = solveFromPoints m points := by
  rcases points with _ | ⟨a, _ | ⟨b, _ | ⟨c, r⟩⟩⟩ <;> rfl

/-- C5: for every rounding `fl`, every `Math` implementation and every list of at least three
points whose first three points have computed twice-area at least `0.01`, `solveFromPoints`
takes exactly one of three paths, decided by the angles it computes: when some computed angle
is `null` or not strictly between `0` and `180` it returns the all-bad result
`Triangle angles are invalid.`; when all three are valid and the computed `|sum - 180|` exceeds
`1.5` it returns the all-bad result `Angles do not sum to 180 degrees.`; otherwise it returns
status `OK` with the computed angles in its fields and in `previewAngles`.  In exact real
arithmetic (`fl = id`, `realMath`) only the last path exists: the angles are defined, each
strictly between `0` and `180`, and sum to exactly `180`. -/
theorem solveFromPoints_ok (fl : ℝ → ℝ) (m : JSMath ℝ) (P1 P2 P3 : Point ℝ)
    (rest : List (Point ℝ)) (harea : 1 / 100 ≤ area2Fl fl P1 P2 P3) :
    ((isAngleValid (angleAtFl fl m P1 P2 P3) && isAngleValid (angleAtFl fl m P2 P1 P3) &&
        isAngleValid (angleAtFl fl m P3 P1 P2)) = false →
      solveFromPointsFl fl m (P1 :: P2 :: P3 :: rest) =
        makeAllBad "Triangle angles are invalid.") ∧
    (∀ A B C, angleAtFl fl m P1 P2 P3 = some A → angleAtFl fl m P2 P1 P3 = some B →
      angleAtFl fl m P3 P1 P2 = some C →
      (0 < A ∧ A < 180) → (0 < B ∧ B < 180) → (0 < C ∧ C < 180) →
      (3 / 2 < |fl (fl (fl (A + B) + C) - 180)| →
        solveFromPointsFl fl m (P1 :: P2 :: P3 :: rest) =
          makeAllBad "Angles do not sum to 180 degrees.") ∧
      (|fl (fl (fl (A + B) + C) - 180)| ≤ 3 / 2 →
        (solveFromPointsFl fl m (P1 :: P2 :: P3 :: rest)).status = "OK" ∧
        (solveFromPointsFl fl m (P1 :: P2 :: P3 :: rest)).fields .A =
          some (Field.ofValue A) ∧
        (solveFromPointsFl fl m (P1 :: P2 :: P3 :: rest)).fields .B =
          some (Field.ofValue B) ∧
        (solveFromPointsFl fl m (P1 :: P2 :: P3 :: rest)).fields .C =
          some (Field.ofValue C) ∧
        (solveFromPointsFl fl m (P1 :: P2 :: P3 :: rest)).previewAngles =
          some ⟨some A, some B, some C⟩)) ∧
    (1 / 100 ≤ area2Fl id P1 P2 P3 →
      ∃ A B C, angleAtFl id realMath P1 P2 P3 = some A ∧
        angleAtFl id realMath P2 P1 P3 = some B ∧ angleAtFl id realMath P3 P1 P2 = some C ∧
        (0 < A ∧ A < 180) ∧ (0 < B ∧ B < 180) ∧ (0 < C ∧ C < 180) ∧
        A + B + C = 180 ∧
        (solveFromPointsFl id realMath (P1 :: P2 :: P3 :: rest)).status = "OK" ∧
        (solveFromPointsFl id realMath (P1 :: P2 :: P3 :: rest)).fields .A =
          some (Field.ofValue A) ∧
        (solveFromPointsFl id realMath (P1 :: P2 :: P3 :: rest)).fields .B =
          some (Field.ofValue B) ∧
        (solveFromPointsFl id realMath (P1 :: P2 :: P3 :: rest)).fields .C =
          some (Field.ofValue C) ∧
        (solveFromPointsFl id realMath (P1 :: P2 :: P3 :: rest)).previewAngles =
          some ⟨some A, some B, some C⟩) := by
  have hnot : ¬ area2Fl fl P1 P2 P3 < 1 / 100 := not_lt.2 harea
  refine ⟨?_, ?_, ?_⟩
  · intro hv
    have hor : (!isAngleValid (angleAtFl fl m P1 P2 P3) ||
        !isAngleValid (angleAtFl fl m P2 P1 P3) ||
        !isAngleValid (angleAtFl fl m P3 P1 P2)) = true := by
      revert hv
      cases isAngleValid (angleAtFl fl m P1 P2 P3) <;>
        cases isAngleValid (angleAtFl fl m P2 P1 P3) <;>
        cases isAngleValid (angleAtFl fl m P3 P1 P2) <;> simp
    simp only [solveFromPointsFl, if_neg hnot]
    rw [if_pos hor]
  · intro A B C eA eB eC vA vB vC
    have h32 : ¬ ((3 : ℝ) / 2 < 0) := by norm_num
    constructor
    · intro hsum
      simp only [solveFromPointsFl, if_neg hnot, eA, eB, eC, isAngleValid, orZero]
      simp [vA.1, vA.2, vB.1, vB.2, vC.1, vC.2, hsum]
    · intro hsum
      have hsum2 : ¬ (3 / 2 < |fl (fl (fl (A + B) + C) - 180)|) := not_lt.2 hsum
      simp only [solveFromPointsFl, if_neg hnot, eA, eB, eC, isAngleValid, orZero]
      simp [vA.1, vA.2, vB.1, vB.2, vC.1, vC.2, hsum2, Fields.set_apply]
  · intro hex
    obtain ⟨A, B, C, eA, eB, eC, vA, vB, vC, hsum, -, hst, fA, fB, fC, hp⟩ :=
      solveFromPoints_exact_ok P1 P2 P3 rest hex
    simp only [angleAtFl_id, solveFromPointsFl_id]
    exact ⟨A, B, C, eA, eB, eC, vA, vB, vC, hsum, hst, fA, fB, fC, hp⟩

/-- C5 (witness): the points `(0,0)`, `(10,0)`, `(5,5)` in exact arithmetic. -/
theorem solveFromPoints_ok_witness :
    1 / 100 ≤ area2Fl id (⟨0, 0⟩ : Point ℝ) ⟨10, 0⟩ ⟨5, 5⟩ ∧
    ∃ A B C, angleAtFl id realMath ⟨0, 0⟩ ⟨10, 0⟩ ⟨5, 5⟩ = some A ∧
      angleAtFl id realMath ⟨10, 0⟩ ⟨0, 0⟩ ⟨5, 5⟩ = some B ∧
      angleAtFl id realMath ⟨5, 5⟩ ⟨0, 0⟩ ⟨10, 0⟩ = some C ∧
      (0 < A ∧ A < 180) ∧ (0 < B ∧ B < 180) ∧ (0 < C ∧ C < 180) ∧
      A + B + C = 180 ∧
      (solveFromPointsFl id realMath [⟨0, 0⟩, ⟨10, 0⟩, ⟨5, 5⟩]).status = "OK" ∧
      (solveFromPointsFl id realMath [⟨0, 0⟩, ⟨10, 0⟩, ⟨5, 5⟩]).fields .A =
        some (Field.ofValue A) ∧
      (solveFromPointsFl id realMath [⟨0, 0⟩, ⟨10, 0⟩, ⟨5, 5⟩]).fields .B =
        some (Field.ofValue B) ∧
      (solveFromPointsFl id realMath [⟨0, 0⟩, ⟨10, 0⟩, ⟨5, 5⟩]).fields .C =
        some (Field.ofValue C) ∧
      (solveFromPointsFl id realMath [⟨0, 0⟩, ⟨10, 0⟩, ⟨5, 5⟩]).previewAngles =
        some ⟨some A, some B, some C⟩ :=
  have h : 1 / 100 ≤ area2Fl id (⟨0, 0⟩ : Point ℝ) ⟨10, 0⟩ ⟨5, 5⟩ := by
    norm_num [area2Fl]
  ⟨h, (solveFromPoints_ok id realMath ⟨0, 0⟩ ⟨10, 0⟩ ⟨5, 5⟩ [] h).2.2 h⟩

/-! ### The needle triangle `(0,0)`, `(1e8,0)`, `(2e8,1)` in IEEE double arithmetic -/

theorem roundDouble_one : roundDouble (1 : ℝ) = 1 := by
  have h := roundDouble_eq (1 : ℝ) 0 4503599627370496 (by norm_num) (by norm_num)
    (by norm_num) (by norm_num)
  rw [h]
  norm_num

/-- The number `1e8` is a double. -/
theorem roundDouble_1e8 : roundDouble (100000000 : ℝ) = 100000000 := by
  have h := roundDouble_eq (100000000 : ℝ) 26 6710886400000000 (by norm_num) (by norm_num)
    (by norm_num) (by norm_num)
  rw [h]
  norm_num

/-- The number `2e8` is a double. -/
theorem roundDouble_2e8 : roundDouble (200000000 : ℝ) = 200000000 := by
  have h := roundDouble_eq (200000000 : ℝ) 27 6710886400000000 (by norm_num) (by norm_num)
    (by norm_num) (by norm_num)
  rw [h]
  norm_num

/-- The number `2e16` is a double. -/
theorem roundDouble_2e16 : roundDouble (20000000000000000 : ℝ) = 20000000000000000 := by
  have h := roundDouble_eq (20000000000000000 : ℝ) 54 5000000000000000 (by norm_num)
    (by norm_num) (by norm_num) (by norm_num)
  rw [h]
  norm_num

/-- Every real within `1e-8` above `2e8` rounds to the double `2e8` (its unit in the last
place is `2 ^ -25`). -/
theorem roundDouble_near_2e8 (r : ℝ) (hlo : 200000000 ≤ r)
    (hhi : r < 200000000 + 1 / 100000000) : roundDouble r = 200000000 := by
  have hpos : (0 : ℝ) < r := by linarith
  have h := roundDouble_eq r 27 6710886400000000
    (by rw [abs_of_pos hpos]; norm_num; linarith)
    (by rw [abs_of_pos hpos]; norm_num; linarith)
    (by norm_num)
    (by
      rw [abs_lt]
      constructor
      · norm_num
        linarith
      · norm_num
        linarith)
  rw [h]
  norm_num

/-- The length `sqrt (2e8 ^ 2 + 1)` rounds to `2e8`. -/
theorem roundDouble_sqrt_needle :
    roundDouble (Real.sqrt ((200000000 : ℝ) ^ 2 + 1 ^ 2)) = 200000000 := by
  apply roundDouble_near_2e8
  · exact Real.le_sqrt_of_sq_le (by norm_num)
  · rw [Real.sqrt_lt' (by norm_num)]
    norm_num

/-- The body of `angleAt` on explicit coordinates. -/
theorem angleAtFl_unfold {α : Type} [LinearOrderedField α] (fl : α → α) (m : JSMath α)
    (px py ax ay bx bY : α) :
    angleAtFl fl m ⟨px, py⟩ ⟨ax, ay⟩ ⟨bx, bY⟩ =
      if fl (m.hypot (fl (ax - px)) (fl (ay - py)) * m.hypot (fl (bx - px)) (fl (bY - py))) = 0
      then none
      else some (fl (fl (m.acos (min 1 (max (-1)
        (fl (fl (fl (fl (ax - px) * fl (bx - px)) + fl (fl (ay - py) * fl (bY - py))) /
          fl (m.hypot (fl (ax - px)) (fl (ay - py)) *
            m.hypot (fl (bx - px)) (fl (bY - py))))))) * 180) / m.PI)) := rfl

/-- On doubles the angle at `(0,0)` between `(1e8,0)` and `(2e8,1)` is computed as `0`: the
dot product and the product of the lengths are both `2e16`, so the cosine is `1`. -/
theorem angleAtFl_double_needle :
    angleAtFl roundDouble doubleMath ⟨0, 0⟩ ⟨100000000, 0⟩ ⟨200000000, 1⟩ = some 0 := by
  have hv1x : roundDouble ((100000000 : ℝ) - 0) = 100000000 := by
    rw [sub_zero, roundDouble_1e8]
  have hv1y : roundDouble ((0 : ℝ) - 0) = 0 := by rw [sub_zero, roundDouble_zero]
  have hv2x : roundDouble ((200000000 : ℝ) - 0) = 200000000 := by
    rw [sub_zero, roundDouble_2e8]
  have hv2y : roundDouble ((1 : ℝ) - 0) = 1 := by rw [sub_zero, roundDouble_one]
  have hh1 : doubleMath.hypot 100000000 0 = 100000000 := by
    show roundDouble (Real.sqrt ((100000000 : ℝ) ^ 2 + 0 ^ 2)) = 100000000
    rw [show (100000000 : ℝ) ^ 2 + 0 ^ 2 = 100000000 ^ 2 by norm_num,
      Real.sqrt_sq (by norm_num), roundDouble_1e8]
  have hh2 : doubleMath.hypot 200000000 1 = 200000000 := roundDouble_sqrt_needle
  have hmul : roundDouble ((100000000 : ℝ) * 200000000) = 20000000000000000 := by
    rw [show (100000000 : ℝ) * 200000000 = 20000000000000000 by norm_num, roundDouble_2e16]
  have hdot : roundDouble (roundDouble ((100000000 : ℝ) * 200000000) +
      roundDouble ((0 : ℝ) * 1)) = 20000000000000000 := by
    rw [hmul, zero_mul, roundDouble_zero, add_zero, roundDouble_2e16]
  have hcos : roundDouble ((20000000000000000 : ℝ) / 20000000000000000) = 1 := by
    rw [div_self (by norm_num), roundDouble_one]
  have hclamp : min (1 : ℝ) (max (-1) 1) = 1 := by norm_num
  have hacos : doubleMath.acos 1 = 0 := by
    show roundDouble (Real.arccos 1) = 0
    rw [Real.arccos_one, roundDouble_zero]
  have hfin : roundDouble (roundDouble ((0 : ℝ) * 180) / doubleMath.PI) = 0 := by
    rw [zero_mul, roundDouble_zero, zero_div, roundDouble_zero]
  rw [angleAtFl_unfold roundDouble doubleMath 0 0 100000000 0 200000000 1]
  rw [hv1x, hv1y, hv2x, hv2y, hh1, hh2, hdot, hmul, hcos, hclamp, hacos, hfin]
  rw [if_neg (by norm_num)]

/-- On doubles the twice-area of `(0,0)`, `(1e8,0)`, `(2e8,1)` is computed as `1e8`. -/
theorem area2Fl_double_needle :
    area2Fl roundDouble (⟨0, 0⟩ : Point ℝ) ⟨100000000, 0⟩ ⟨200000000, 1⟩ = 100000000 := by
  have hv1x : roundDouble ((100000000 : ℝ) - 0) = 100000000 := by
    rw [sub_zero, roundDouble_1e8]
  have hv1y : roundDouble ((0 : ℝ) - 0) = 0 := by rw [sub_zero, roundDouble_zero]
  have hv2x : roundDouble ((200000000 : ℝ) - 0) = 200000000 := by
    rw [sub_zero, roundDouble_2e8]
  have hv2y : roundDouble ((1 : ℝ) - 0) = 1 := by rw [sub_zero, roundDouble_one]
  show |roundDouble (roundDouble (roundDouble ((100000000 : ℝ) - 0) * roundDouble ((1 : ℝ) - 0)) -
    roundDouble (roundDouble ((0 : ℝ) - 0) * roundDouble ((200000000 : ℝ) - 0)))| = 100000000
  rw [hv1x, hv1y, hv2x, hv2y, mul_one, zero_mul, roundDouble_1e8, roundDouble_zero, sub_zero,
    roundDouble_1e8]
  norm_num

/-- If the twice-area passes the collinearity test and the first computed angle is not valid,
`solveFromPoints` returns `Triangle angles are invalid.`. -/
theorem solveFromPointsFl_first_invalid {α : Type} [LinearOrderedField α] (fl : α → α)
    (m : JSMath α) (P1 P2 P3 : Point α) (rest : List (Point α))
    (harea : ¬ area2Fl fl P1 P2 P3 < 1 / 100)
    (hA : isAngleValid (angleAtFl fl m P1 P2 P3) = false) :
    solveFromPointsFl fl m (P1 :: P2 :: P3 :: rest) =
      makeAllBad "Triangle angles are invalid." := by
  simp only [solveFromPointsFl, if_neg harea]
  rw [if_pos (by rw [hA]; rfl)]

/-- C5 (counterexample): with IEEE double rounding and correctly rounded `Math.hypot` and
`Math.acos`, the points `(0,0)`, `(1e8,0)`, `(2e8,1)` have computed twice-area `1e8`, far above
`0.01`, yet the angle at the first point is computed as `0` and `solveFromPoints` returns
`Triangle angles are invalid.`. -/
theorem solveFromPoints_double_counterexample :
    1 / 100 ≤ area2Fl roundDouble (⟨0, 0⟩ : Point ℝ) ⟨100000000, 0⟩ ⟨200000000, 1⟩ ∧
    angleAtFl roundDouble doubleMath ⟨0, 0⟩ ⟨100000000, 0⟩ ⟨200000000, 1⟩ = some 0 ∧
    solveFromPointsFl roundDouble doubleMath [⟨0, 0⟩, ⟨100000000, 0⟩, ⟨200000000, 1⟩] =
      makeAllBad "Triangle angles are invalid." := by
  have harea : (1 : ℝ) / 100 ≤
      area2Fl roundDouble (⟨0, 0⟩ : Point ℝ) ⟨100000000, 0⟩ ⟨200000000, 1⟩ := by
    rw [area2Fl_double_needle]
    norm_num
  refine ⟨harea, angleAtFl_double_needle, ?_⟩
  apply solveFromPointsFl_first_invalid _ _ _ _ _ _ (not_lt.2 harea)
  rw [angleAtFl_double_needle]
  simp [isAngleValid]

end PointTheorems

/-! ## Classification of results and `previewAngles` -/

section ClassifierTheorems

variable {α : Type} [LinearOrderedField α]

/-- C6: when the first three points have twice-area below `0.01` (coincident points
included), `solveFromPoints` returns status `Bad value`, all nine fields tagged `bad` with the
collinearity reason, and `previewAngles` null; for fewer than three points it returns status
`N.A.` with all nine fields tagged `na`. -/
theorem solveFromPoints_degenerate (m : JSMath α) (points : List (Point α)) :
    (∀ P1 P2 P3 rest, points = P1 :: P2 :: P3 :: rest →
      |(P2.x - P1.x) * (P3.y - P1.y) - (P2.y - P1.y) * (P3.x - P1.x)| < 1 / 100 →
      (solveFromPoints m points).status = "Bad value" ∧
      (∀ k, (solveFromPoints m points).fields k =
        some ⟨"bad", none, some "Points are collinear (not a valid triangle)."⟩) ∧
      (solveFromPoints m points).previewAngles = none) ∧
    (points.length < 3 →
      (solveFromPoints m points).status = "N.A." ∧
      (∀ k, (solveFromPoints m points).fields k =
        some ⟨"na", none, some "Waiting for 3 points on the canvas."⟩) ∧
      (solveFromPoints m points).previewAngles = none) := by
  constructor
  · rintro P1 P2 P3 rest rfl harea
    have hs : solveFromPoints m (P1 :: P2 :: P3 :: rest) =
        makeAllBad "Points are collinear (not a valid triangle)." := by
      simp only [solveFromPoints, if_pos harea]
    rw [hs]
    exact ⟨rfl, fun k => makeAllBad_fields _ k, rfl⟩
  · intro hlen
    have hs : solveFromPoints m points = makeAllNA "Waiting for 3 points on the canvas." := by
      match points, hlen with
      | [], _ => rfl
      | [_], _ => rfl
      | [_, _], _ => rfl
      | _ :: _ :: _ :: _, h => simp at h; omega
    rw [hs]
    exact ⟨rfl, fun k => makeAllNA_fields _ k, rfl⟩

/-- C6 (witness): the collinear points `(0,0)`, `(5,0)`, `(10,0)`, and a list of two points. -/
theorem solveFromPoints_degenerate_witness :
    ((solveFromPoints realMath [⟨0, 0⟩, ⟨5, 0⟩, ⟨10, 0⟩]).status = "Bad value" ∧
      (∀ k, (solveFromPoints realMath [⟨0, 0⟩, ⟨5, 0⟩, ⟨10, 0⟩]).fields k =
        some ⟨"bad", none, some "Points are collinear (not a valid triangle)."⟩) ∧
      (solveFromPoints realMath [⟨0, 0⟩, ⟨5, 0⟩, ⟨10, 0⟩]).previewAngles = none) ∧
    ((solveFromPoints realMath [⟨0, 0⟩, ⟨5, 0⟩]).status = "N.A." ∧
      (∀ k, (solveFromPoints realMath [⟨0, 0⟩, ⟨5, 0⟩]).fields k =
        some ⟨"na", none, some "Waiting for 3 points on the canvas."⟩) ∧
      (solveFromPoints realMath [⟨0, 0⟩, ⟨5, 0⟩]).previewAngles = none) :=
  ⟨(solveFromPoints_degenerate realMath [⟨0, 0⟩, ⟨5, 0⟩, ⟨10, 0⟩]).1 ⟨0, 0⟩ ⟨5, 0⟩ ⟨10, 0⟩ []
      rfl (by norm_num),
    (solveFromPoints_degenerate realMath [⟨0, 0⟩, ⟨5, 0⟩]).2 (by simp)⟩

theorem anyValue_iff {β : Type} (fields : Fields β) :
    anyValue fields = true ↔ ∃ k f, fields k = some f ∧ f.status = "value" := by
  simp only [anyValue, List.any_eq_true, List.mem_filterMap, beq_iff_eq]
  constructor
  · rintro ⟨f, ⟨k, -, hk⟩, hf⟩
    exact ⟨k, f, hk, hf⟩
  · rintro ⟨k, f, hk, hf⟩
    exact ⟨f, ⟨k, by cases k <;> simp [FIELD_KEYS], hk⟩, hf⟩

theorem classified_makeAllBad {β : Type} (reason : String) :
    (makeAllBad reason : SolveResult β).Classified := by
  refine ⟨fun k => ⟨_, makeAllBad_fields reason k, Or.inr (Or.inl rfl)⟩, Or.inl ⟨rfl, ?_⟩⟩
  intro k f hf
  rw [makeAllBad_fields] at hf
  simp only [Option.some.injEq] at hf
  rw [← hf]

theorem classified_makeAllNA {β : Type} (reason : String) :
    (makeAllNA reason : SolveResult β).Classified := by
  have hno : ¬ ∃ k f, (makeAllNA reason : SolveResult β).fields k = some f ∧
      f.status = "value" := by
    rintro ⟨k, f, hf, hv⟩
    rw [makeAllNA_fields] at hf
    simp only [Option.some.injEq] at hf
    rw [← hf] at hv
    exact absurd (show "na" = "value" from hv) (by decide)
  refine ⟨fun k => ⟨_, makeAllNA_fields reason k, Or.inr (Or.inr rfl)⟩, Or.inr ⟨?_, ?_, ?_⟩⟩
  · intro k f hf
    rw [makeAllNA_fields] at hf
    simp only [Option.some.injEq] at hf
    rw [← hf]
    show "na" ≠ "bad"
    decide
  · exact ⟨fun h => absurd (show "N.A." = "OK" from h) (by decide), fun h => absurd h hno⟩
  · intro _
    rfl

theorem settled_set {β : Type} (fields : Fields β) (key : FieldKey) (field : Field β)
    (h : fields.Settled) (hf : field.status = "value" ∨ field.status = "na") :
    (fields.set key field).Settled := by
  intro k
  by_cases hk : k = key
  · exact ⟨field, by simp [Fields.set_apply, hk], hf⟩
  · obtain ⟨f, h1, h2⟩ := h k
    exact ⟨f, by simp [Fields.set_apply, hk, h1], h2⟩

theorem settled_init {β : Type} (reason : String) :
    (FIELD_KEYS.foldl (fun fields key => fields.set key (Field.ofNA reason))
      (fun _ => none) : Fields β).Settled := by
  intro k
  exact ⟨Field.ofNA reason, by cases k <;> simp [FIELD_KEYS, Fields.set_apply], Or.inr rfl⟩

theorem settled_setAngleFields (fields : Fields α) (angles : AngleSet α) (h : fields.Settled) :
    (setAngleFields fields angles).Settled := by
  unfold setAngleFields
  rcases angles with ⟨_ | A, _ | B, _ | C⟩ <;>
    simp only <;>
    repeat (first | exact h | apply settled_set _ _ _ _ (Or.inl rfl))

theorem classified_finishAngles {β : Type} (fields : Fields β) (reason : String)
    (previewAngles : Option (AngleSet β)) (h : fields.Settled) :
    (finishAngles fields reason previewAngles).Classified := by
  refine ⟨fun k => ?_, Or.inr ⟨?_, ?_, ?_⟩⟩
  · obtain ⟨f, h1, h2⟩ := h k
    exact ⟨f, h1, h2.elim Or.inl (fun h => Or.inr (Or.inr h))⟩
  · intro k f hf
    obtain ⟨g, h1, h2⟩ := h k
    have hfg : g = f := by
      have : fields k = some f := hf
      rw [h1] at this
      exact Option.some.inj this
    subst hfg
    rcases h2 with h2 | h2 <;> rw [h2] <;> decide
  · show (if anyValue fields then "OK" else "N.A.") = "OK" ↔
      ∃ k f, fields k = some f ∧ f.status = "value"
    rw [← anyValue_iff]
    by_cases hv : anyValue fields = true
    · simp [hv]
    · rw [if_neg hv]
      exact ⟨fun h => absurd h (by decide), fun h => absurd h hv⟩
  · intro hno
    show (if anyValue fields then "OK" else "N.A.") = "N.A."
    have hv : ¬ anyValue fields = true := fun hv => hno ((anyValue_iff fields).1 hv)
    simp [hv]

theorem classified_solveFromAngles (m : JSMath α) (i : Inputs α) :
    (solveFromAngles m i).Classified := by
  unfold solveFromAngles
  split
  · exact classified_makeAllBad _
  · apply classified_finishAngles
    exact settled_set _ _ _ (settled_set _ _ _ (settled_set _ _ _
      (settled_setAngleFields _ _ (settled_init _)) (Or.inr rfl)) (Or.inr rfl)) (Or.inr rfl)
  · simp only
    split
    · exact classified_makeAllBad _
    · apply classified_finishAngles
      exact settled_set _ _ _ (settled_set _ _ _ (settled_set _ _ _
        (settled_setAngleFields _ _ (settled_init _)) (Or.inl rfl)) (Or.inl rfl)) (Or.inl rfl)
    · apply classified_finishAngles
      exact settled_set _ _ _ (settled_set _ _ _ (settled_set _ _ _
        (settled_setAngleFields _ _ (settled_init _)) (Or.inr rfl)) (Or.inr rfl)) (Or.inr rfl)

theorem classified_solveFromPoints (m : JSMath α) (points : List (Point α)) :
    (solveFromPoints m points).Classified := by
  unfold solveFromPoints
  split
  · rename_i Apt Bpt Cpt rest
    simp only
    split_ifs with harea
    · exact classified_makeAllBad _
    · exact classified_makeAllBad _
    · exact classified_makeAllBad _
    · rename_i hvalid hsum
      have hall : ∀ k, ∃ v, (solveFromPoints m (Apt :: Bpt :: Cpt :: rest)).fields k =
          some (Field.ofValue v) := by
        intro k
        simp only [solveFromPoints, if_neg harea, if_neg hvalid, if_neg hsum]
        cases k <;> exact ⟨_, rfl⟩
      simp only [solveFromPoints, if_neg harea, if_neg hvalid, if_neg hsum] at hall
      refine ⟨fun k => ?_, Or.inr ⟨?_, ?_, ?_⟩⟩
      · obtain ⟨v, hv⟩ := hall k
        exact ⟨_, hv, Or.inl rfl⟩
      · intro k f hf
        obtain ⟨v, hv⟩ := hall k
        have hfv : f = Field.ofValue v := by
          have h2 := hf
          simp only at h2
          rw [hv] at h2
          exact (Option.some.inj h2).symm
        rw [hfv]
        exact (by decide : "value" ≠ "bad")
      · exact ⟨fun _ => ⟨.A, _, (hall .A).choose_spec, rfl⟩, fun _ => rfl⟩
      · intro hno
        exact absurd ⟨.A, _, (hall .A).choose_spec, rfl⟩ hno
  · exact classified_makeAllNA _

theorem computeSides_eq_sidesFrom (m : JSMath α) (i : Inputs α) (angles : AngleSet α) :
    computeSides m i angles = sidesFrom m (firstSide i) angles := by
  rcases ha : i.a with _ | a <;> rcases hb : i.b with _ | b <;> rcases hc : i.c with _ | c <;>
    simp only [computeSides, sidesFrom, firstSide, providedSide, Inputs.get, ha, hb, hc,
      List.find?, Option.isSome, orZero, oppositeAngle] <;>
    simp

/-- C7: every result of `solveFromAngles` and of `solveFromPoints` has all nine keys present,
each tagged `value`, `bad` or `na`; either all nine fields are `bad` and the status is
`Bad value`, or no field is `bad`, the status is `OK` exactly when some field is a `value`, and
`N.A.` otherwise. In particular, when `normalizeAngles` returns a complete triple and the first
present side is not positive, all nine fields are `bad`. -/
theorem solve_results_classified (m : JSMath α) (i : Inputs α) (points : List (Point α)) :
    (solveFromAngles m i).Classified ∧ (solveFromPoints m points).Classified ∧
    (∀ angles reason L s, normalizeAngles i = .ok angles reason → firstSide i = some (L, s) →
      s ≤ 0 →
      (solveFromAngles m i).status = "Bad value" ∧
      ∀ k, (solveFromAngles m i).fields k =
        some ⟨"bad", none, some "Side length must be greater than zero."⟩) := by
  refine ⟨classified_solveFromAngles m i, classified_solveFromPoints m points, ?_⟩
  intro angles reason L s hn hL hs
  have hside : computeSides m i angles = .bad "Side length must be greater than zero." := by
    rw [computeSides_eq_sidesFrom, hL]
    simp [sidesFrom, hs]
  have hr : solveFromAngles m i = makeAllBad "Side length must be greater than zero." := by
    simp only [solveFromAngles, hn, hside]
  rw [hr]
  exact ⟨rfl, fun k => makeAllBad_fields _ k⟩

/-- C7 (witness): `A = 60`, `B = 60` with side `a = -1` gives nine `bad` fields. -/
theorem solve_results_classified_witness :
    (solveFromAngles realMath
        ⟨some 60, some 60, none, none, none, none, some (-1), none, none⟩).status = "Bad value" ∧
    ∀ k, (solveFromAngles realMath
        ⟨some 60, some 60, none, none, none, none, some (-1), none, none⟩).fields k =
      some ⟨"bad", none, some "Side length must be greater than zero."⟩ :=
  (solve_results_classified realMath
      ⟨some 60, some 60, none, none, none, none, some (-1), none, none⟩ []).2.2
    ⟨some 60, some 60, some 60⟩ "" .a (-1)
    (by
      norm_num [normalizeAngles, normalizeLoop_unfold, pairMismatch, workingValue, valueInvalid,
        knownCount, AngleSet.get, orZero, fillMissing])
    rfl (by norm_num)

/-- C8 (amended): when `normalizeAngles` returns `ok` with a triple, `solveFromAngles` has
`previewAngles` equal to that triple provided `computeSides` does not return `bad`; when
`computeSides` returns `bad`, `previewAngles` is null. When `solveFromPoints` returns `OK`,
`previewAngles` is the triple of the three computed angles, each of them valid. -/
theorem previewAngles_populated (m : JSMath α) (i : Inputs α) (points : List (Point α)) :
    (∀ angles reason, normalizeAngles i = .ok angles reason →
      ((∀ r, computeSides m i angles ≠ .bad r) →
        (solveFromAngles m i).previewAngles = some angles) ∧
      (∀ r, computeSides m i angles = .bad r → (solveFromAngles m i).previewAngles = none)) ∧
    (∀ P1 P2 P3 rest, points = P1 :: P2 :: P3 :: rest →
      (solveFromPoints m points).status = "OK" →
      (solveFromPoints m points).previewAngles =
        some ⟨angleAt m P1 P2 P3, angleAt m P2 P1 P3, angleAt m P3 P1 P2⟩ ∧
      isAngleValid (angleAt m P1 P2 P3) = true ∧ isAngleValid (angleAt m P2 P1 P3) = true ∧
      isAngleValid (angleAt m P3 P1 P2) = true) := by
  constructor
  · intro angles reason hn
    constructor
    · intro hnb
      cases hc : computeSides m i angles with
      | bad r => exact absurd hc (hnb r)
      | na r => simp only [solveFromAngles, hn, hc, finishAngles]
      | ok sides => simp only [solveFromAngles, hn, hc, finishAngles]
    · intro r hc
      simp only [solveFromAngles, hn, hc, makeAllBad]
  · rintro P1 P2 P3 rest rfl hst
    simp only [solveFromPoints] at hst ⊢
    split_ifs at hst ⊢ with h1 h2 h3
    · exact absurd (show "Bad value" = "OK" from hst) (by decide)
    · exact absurd (show "Bad value" = "OK" from hst) (by decide)
    · exact absurd (show "Bad value" = "OK" from hst) (by decide)
    · refine ⟨rfl, ?_⟩
      simpa [and_assoc] using h2

/-- C8 (witness): `A = 50`, `B = 60` and no side: `previewAngles` is `50, 60, 70`. -/
theorem previewAngles_populated_witness :
    (solveFromAngles realMath
      ⟨some 50, some 60, none, none, none, none, none, none, none⟩).previewAngles =
      some ⟨some 50, some 60, some 70⟩ :=
  ((previewAngles_populated realMath
      ⟨some 50, some 60, none, none, none, none, none, none, none⟩ []).1
    ⟨some 50, some 60, some 70⟩ ""
    (by
      norm_num [normalizeAngles, normalizeLoop_unfold, pairMismatch, workingValue, valueInvalid,
        knownCount, AngleSet.get, orZero, fillMissing])).1
    (by simp [computeSides_eq_sidesFrom, firstSide, sidesFrom])

/-- C8 (counterexample): `A = 50`, `B = 60` with side `a = 0`: `normalizeAngles` returns `ok`
with the triple `50, 60, 70`, yet `previewAngles` of `solveFromAngles` is null. -/
theorem previewAngles_counterexample :
    normalizeAngles (⟨some 50, some 60, none, none, none, none, some 0, none, none⟩ : Inputs ℝ)
      = .ok ⟨some 50, some 60, some 70⟩ "" ∧
    (solveFromAngles realMath
      ⟨some 50, some 60, none, none, none, none, some 0, none, none⟩).previewAngles = none := by
  have hn : normalizeAngles
      (⟨some 50, some 60, none, none, none, none, some 0, none, none⟩ : Inputs ℝ)
      = .ok ⟨some 50, some 60, some 70⟩ "" := by
    norm_num [normalizeAngles, normalizeLoop_unfold, pairMismatch, workingValue, valueInvalid,
      knownCount, AngleSet.get, orZero, fillMissing]
  refine ⟨hn, ?_⟩
  simp [solveFromAngles, hn, computeSides_eq_sidesFrom, firstSide, sidesFrom, makeAllBad]

end ClassifierTheorems

/-! ## `computeSides`: which side is used -/

section PriorityTheorems

variable {α : Type} [LinearOrderedField α]

/-- What `computeSides` returns, for every rounding, once the first present side is known:
a side that is not positive is `bad`, and a positive one is scaled from, or is `bad` when the
scale is not finite. -/
theorem computeSidesFl_firstSide_cases (fl : α → α) (finite : α → Bool) (m : JSMath α)
    (i : Inputs α) (angles : AngleSet α) (L : FieldKey) (s : α)
    (hL : firstSide i = some (L, s)) :
    computeSidesFl fl finite m i angles =
      if s ≤ 0 then .bad "Side length must be greater than zero."
      else
        match jsDivFl fl finite s (m.sin (degToRadFl fl m
          (oppositeAngle (orZero angles.A) (orZero angles.B) (orZero angles.C) L))) with
        | none => .bad "Cannot compute side lengths with given values."
        | some k =>
          .ok { a := fl (k * m.sin (degToRadFl fl m (orZero angles.A)))
                b := fl (k * m.sin (degToRadFl fl m (orZero angles.B)))
                c := fl (k * m.sin (degToRadFl fl m (orZero angles.C))) } := by
  obtain ⟨hp, hg, hcase⟩ := providedSide_of_firstSide i L s hL
  rcases hcase with rfl | rfl | rfl <;>
    simp only [Inputs.get] at hg <;>
    simp [computeSidesFl, hp, hg, Inputs.get, orZero, oppositeAngle]

/-- C9 (amended): stated for `computeSides` with every rounding `fl` and every finiteness test
(`fl = id` with no overflow is exact arithmetic). `computeSides` returns `ok` only if some side
is present and the first present side in the order `a`, `b`, `c` is greater than zero; with no
side present it returns `na`, never computed sides. Whenever the first present side `s`, on
label `L`, is greater than zero, the result is fixed by `L`, `s` and the angles alone, whatever
the later sides hold: when the computed scale `k = s / sin (angle of L)` is finite it is `ok`
with the computed sides `k * sin A`, `k * sin B`, `k * sin C`, and when it is not finite it is
`bad`. -/
theorem computeSides_ok_first_positive (fl : α → α) (finite : α → Bool) (m : JSMath α)
    (i : Inputs α) (angles : AngleSet α) :
    (∀ sides, computeSidesFl fl finite m i angles = .ok sides →
      ∃ L s, firstSide i = some (L, s) ∧ 0 < s) ∧
    (i.a = none → i.b = none → i.c = none →
      computeSidesFl fl finite m i angles = .na "Provide one side length to compute sides.") ∧
    (∀ L s k, firstSide i = some (L, s) → 0 < s →
      jsDivFl fl finite s (m.sin (degToRadFl fl m
        (oppositeAngle (orZero angles.A) (orZero angles.B) (orZero angles.C) L))) = some k →
      computeSidesFl fl finite m i angles =
        .ok { a := fl (k * m.sin (degToRadFl fl m (orZero angles.A)))
              b := fl (k * m.sin (degToRadFl fl m (orZero angles.B)))
              c := fl (k * m.sin (degToRadFl fl m (orZero angles.C))) }) ∧
    (∀ L s, firstSide i = some (L, s) → 0 < s →
      jsDivFl fl finite s (m.sin (degToRadFl fl m
        (oppositeAngle (orZero angles.A) (orZero angles.B) (orZero angles.C) L))) = none →
      computeSidesFl fl finite m i angles =
        .bad "Cannot compute side lengths with given values.") := by
  refine ⟨?_, ?_, ?_, ?_⟩
  · intro sides h
    rcases hf : firstSide i with _ | ⟨L, s⟩
    · obtain ⟨ha, hb, hc⟩ := (firstSide_eq_none_iff i).1 hf
      simp [computeSidesFl, providedSide, Inputs.get, ha, hb, hc] at h
    · refine ⟨L, s, rfl, ?_⟩
      by_contra hs
      rw [computeSidesFl_firstSide_cases fl finite m i angles L s hf,
        if_pos (not_lt.1 hs)] at h
      simp at h
  · intro ha hb hc
    simp [computeSidesFl, providedSide, Inputs.get, ha, hb, hc]
  · intro L s k hL hs hk
    rw [computeSidesFl_firstSide_cases fl finite m i angles L s hL, if_neg (not_le.2 hs), hk]
  · intro L s hL hs hk
    rw [computeSidesFl_firstSide_cases fl finite m i angles L s hL, if_neg (not_le.2 hs), hk]

/-- C9 (witness): in exact arithmetic, side `a = 5` alone with angles `60, 60, 60`; no side at
all; and `a = 5` together with `b = 3`, where the sides are scaled from `a = 5` alone. -/
theorem computeSides_ok_first_positive_witness :
    (∃ L s, firstSide (⟨none, none, none, none, none, none, some 5, none, none⟩ : Inputs ℝ)
      = some (L, s) ∧ 0 < s) ∧
    computeSidesFl id (fun _ => true) realMath
      (⟨none, none, none, none, none, none, none, none, none⟩ : Inputs ℝ)
      ⟨some 60, some 60, some 60⟩ = .na "Provide one side length to compute sides." ∧
    computeSidesFl id (fun _ => true) realMath
      (⟨none, none, none, none, none, none, some 5, some 3, none⟩ : Inputs ℝ)
      ⟨some 60, some 60, some 60⟩ =
      .ok { a := 5 / Real.sin (60 * Real.pi / 180) * Real.sin (60 * Real.pi / 180)
            b := 5 / Real.sin (60 * Real.pi / 180) * Real.sin (60 * Real.pi / 180)
            c := 5 / Real.sin (60 * Real.pi / 180) * Real.sin (60 * Real.pi / 180) } :=
  ⟨(computeSides_ok_first_positive id (fun _ => true) realMath
      ⟨none, none, none, none, none, none, some 5, none, none⟩ ⟨some 60, some 60, some 60⟩).1 _
      ((computeSidesFl_exact realMath _ _).trans
        (computeSides_of_firstSide realMath 60 60 60 _ .a 5 rfl (by norm_num)
          (ne_of_gt (sin_deg_pos 60 (by norm_num))))),
    (computeSides_ok_first_positive id (fun _ => true) realMath
      ⟨none, none, none, none, none, none, none, none, none⟩ ⟨some 60, some 60, some 60⟩).2.1
      rfl rfl rfl,
    (computeSides_ok_first_positive id (fun _ => true) realMath
      ⟨none, none, none, none, none, none, some 5, some 3, none⟩
      ⟨some 60, some 60, some 60⟩).2.2.1 .a 5 _ rfl (by norm_num)
      (by
        have h := ne_of_gt (sin_deg_pos 60 (by norm_num))
        simp only [jsDivFl, realMath, degToRadFl, oppositeAngle, orZero, if_neg h, id]
        rfl)⟩

/-- C9 (counterexample): with both `a = 5` and `b = 3` present and angles `60, 60, 60`,
`computeSides` returns `ok`, scaling from `a` alone. -/
theorem computeSides_two_sides_counterexample :
    (⟨none, none, none, none, none, none, some 5, some 3, none⟩ : Inputs ℝ).a = some 5 ∧
    (⟨none, none, none, none, none, none, some 5, some 3, none⟩ : Inputs ℝ).b = some 3 ∧
    ∃ sides, computeSides realMath ⟨none, none, none, none, none, none, some 5, some 3, none⟩
      ⟨some 60, some 60, some 60⟩ = .ok sides :=
  ⟨rfl, rfl, _, computeSides_of_firstSide realMath 60 60 60 _ .a 5 rfl (by norm_num)
    (ne_of_gt (sin_deg_pos 60 (by norm_num)))⟩

/-- C10: two input records with the same first present side (same key, same value) get the
same result from `computeSides`, whatever the later sides hold; and a first present side that
is not positive yields `bad`. -/
theorem computeSides_first_wins (m : JSMath α) (angles : AngleSet α) (i1 i2 : Inputs α)
    (h : firstSide i1 = firstSide i2) :
    computeSides m i1 angles = computeSides m i2 angles ∧
    (∀ L s, firstSide i1 = some (L, s) → s ≤ 0 →
      computeSides m i1 angles = .bad "Side length must be greater than zero.") := by
  refine ⟨by rw [computeSides_eq_sidesFrom, computeSides_eq_sidesFrom, h], ?_⟩
  intro L s hL hs
  rw [computeSides_eq_sidesFrom, hL]
  simp [sidesFrom, hs]

/-- C10 (witness): `a = 5` alone against `a = 5`, `b = -3`, `c = 100`; and `a = -1` with
`b = 5` is `bad`. -/
theorem computeSides_first_wins_witness :
    computeSides realMath ⟨none, none, none, none, none, none, some 5, none, none⟩
        ⟨some 90, some 45, some 45⟩ =
      computeSides realMath ⟨none, none, none, none, none, none, some 5, some (-3), some 100⟩
        ⟨some 90, some 45, some 45⟩ ∧
    computeSides realMath ⟨none, none, none, none, none, none, some (-1), some 5, none⟩
        ⟨some 90, some 45, some 45⟩ = .bad "Side length must be greater than zero." :=
  ⟨(computeSides_first_wins realMath ⟨some 90, some 45, some 45⟩
      ⟨none, none, none, none, none, none, some 5, none, none⟩
      ⟨none, none, none, none, none, none, some 5, some (-3), some 100⟩ rfl).1,
    (computeSides_first_wins realMath ⟨some 90, some 45, some 45⟩
      ⟨none, none, none, none, none, none, some (-1), some 5, none⟩
      ⟨none, none, none, none, none, none, some (-1), some 5, none⟩ rfl).2 .a (-1) rfl
      (by norm_num)⟩

end PriorityTheorems

/-! ## History: record and replay -/

section HistoryTheorems

variable {α : Type} [LinearOrderedField α]

theorem compute_false_history (m : JSMath α) (s : AppState α) :
    (compute m s false).history = s.history := by
  simp [compute]

theorem applyHistory_history_some (m : JSMath α) (s : AppState α) (attempt : HistoryAttempt α)
    (h : s.history.attempt = some attempt) :
    (applyHistory m s).history =
      { exists_ := s.history.exists_, suppressed := true, attempt := some attempt } := by
  simp only [applyHistory, h]
  rw [compute_false_history]
  split_ifs <;> simp [setMode, fillAngleInputs, h]

theorem applyHistory_none (m : JSMath α) (s : AppState α) (h : s.history.attempt = none) :
    applyHistory m s = s := by
  simp only [applyHistory, h]

theorem historyRun_append (m : JSMath α) (s : AppState α) (l1 l2 : List (HistoryEvent α)) :
    historyRun m s (l1 ++ l2) = historyRun m (historyRun m s l1) l2 := by
  simp [historyRun, List.foldl_append]

theorem historyRun_replays_none (m : JSMath α) (post : List (HistoryEvent α))
    (hp : ∀ e ∈ post, e = HistoryEvent.replay) (s : AppState α)
    (h : s.history.attempt = none) : historyRun m s post = s := by
  induction post generalizing s with
  | nil => rfl
  | cons e rest ih =>
    have he : e = HistoryEvent.replay := hp e (List.mem_cons_self _ _)
    subst he
    have hs : historyStep m s HistoryEvent.replay = s := applyHistory_none m s h
    show historyRun m (historyStep m s HistoryEvent.replay) rest = s
    rw [hs]
    exact ih (fun e he => hp e (List.mem_cons_of_mem _ he)) s h

theorem historyRun_replays_some (m : JSMath α) (post : List (HistoryEvent α))
    (hp : ∀ e ∈ post, e = HistoryEvent.replay) (s : AppState α) (b1 b2 : Bool)
    (attempt : HistoryAttempt α)
    (h : s.history = { exists_ := b1, suppressed := b2, attempt := some attempt }) :
    (historyRun m s post).history =
      { exists_ := b1, suppressed := b2 || !post.isEmpty, attempt := some attempt } := by
  induction post generalizing s b2 with
  | nil => simpa [historyRun] using h
  | cons e rest ih =>
    have he : e = HistoryEvent.replay := hp e (List.mem_cons_self _ _)
    subst he
    have hs : (historyStep m s HistoryEvent.replay).history =
        { exists_ := b1, suppressed := true, attempt := some attempt } := by
      show (applyHistory m s).history = _
      rw [applyHistory_history_some m s attempt (by rw [h]), h]
    show (historyRun m (historyStep m s HistoryEvent.replay) rest).history = _
    rw [ih (fun e he => hp e (List.mem_cons_of_mem _ he)) _ true hs]
    simp

theorem history_decompose {β : Type} (events : List (HistoryEvent β)) :
    (∀ e ∈ events, e = HistoryEvent.replay) ∨
    ∃ pre attempt post, events = pre ++ HistoryEvent.record attempt :: post ∧
      ∀ e ∈ post, e = HistoryEvent.replay := by
  induction events with
  | nil => exact Or.inl (fun e he => absurd he (List.not_mem_nil e))
  | cons e rest ih =>
    rcases ih with hall | ⟨pre, attempt, post, hrest, hpost⟩
    · cases e with
      | replay =>
        refine Or.inl (fun e he => ?_)
        rcases List.mem_cons.1 he with rfl | he
        · rfl
        · exact hall e he
      | record attempt => exact Or.inr ⟨[], attempt, rest, rfl, hall⟩
    · exact Or.inr ⟨e :: pre, attempt, post, by rw [hrest]; rfl, hpost⟩

theorem historyRun_after_record (m : JSMath α) (s : AppState α)
    (pre post : List (HistoryEvent α)) (attempt : HistoryAttempt α)
    (hp : ∀ e ∈ post, e = HistoryEvent.replay) :
    (historyRun m s (pre ++ HistoryEvent.record attempt :: post)).history =
      { exists_ := true, suppressed := !post.isEmpty, attempt := some attempt } := by
  rw [historyRun_append]
  show (historyRun m (updateHistoryPanel (historyRun m s pre) attempt) post).history = _
  rw [historyRun_replays_some m post hp _ true false attempt rfl]
  simp

/-- C11: replay never changes the stored attempt. In a state whose history holds an attempt,
`applyHistory` leaves `history.attempt` and `history.exists` unchanged and sets
`history.suppressed` to true, the re-solve `compute(false)` leaving the history as it is; in a
state whose history holds no attempt, `applyHistory` changes nothing at all. The same holds
for the click handler of the history panel, which replays only when `history.exists`. -/
theorem applyHistory_keeps_attempt (m : JSMath α) (s : AppState α) :
    (∀ attempt, s.history.attempt = some attempt →
      (applyHistory m s).history =
        { exists_ := s.history.exists_, suppressed := true, attempt := some attempt }) ∧
    (s.history.attempt = none → applyHistory m s = s) ∧
    (compute m s false).history = s.history ∧
    ((historyPanelClick m s).history.attempt = s.history.attempt ∧
      (historyPanelClick m s).history.exists_ = s.history.exists_) := by
  refine ⟨fun attempt h => applyHistory_history_some m s attempt h,
    fun h => applyHistory_none m s h, compute_false_history m s, ?_⟩
  unfold historyPanelClick
  split_ifs
  · exact ⟨rfl, rfl⟩
  · rcases h : s.history.attempt with _ | attempt
    · rw [applyHistory_none m s h]
      exact ⟨h, rfl⟩
    · rw [applyHistory_history_some m s attempt h]
      exact ⟨rfl, rfl⟩

/-- C11 (witness): a stored draw attempt with the points `(0,0)`, `(10,0)`, `(5,5)` is replayed
from angle mode; the history keeps the attempt and becomes suppressed. -/
theorem applyHistory_keeps_attempt_witness :
    (applyHistory realMath
      { mode := .angles, points := [], hover := none, currentAngles := none,
        history :=
          { exists_ := true, suppressed := false,
            attempt := some
              { mode := .draw, inputs := none, points := some [⟨0, 0⟩, ⟨10, 0⟩, ⟨5, 5⟩],
                results := solveFromPoints realMath [⟨0, 0⟩, ⟨10, 0⟩, ⟨5, 5⟩],
                previewAngles :=
                  (solveFromPoints realMath [⟨0, 0⟩, ⟨10, 0⟩, ⟨5, 5⟩]).previewAngles } },
        form := Inputs.empty }).history =
      { exists_ := true, suppressed := true,
        attempt := some
          { mode := .draw, inputs := none, points := some [⟨0, 0⟩, ⟨10, 0⟩, ⟨5, 5⟩],
            results := solveFromPoints realMath [⟨0, 0⟩, ⟨10, 0⟩, ⟨5, 5⟩],
            previewAngles :=
              (solveFromPoints realMath [⟨0, 0⟩, ⟨10, 0⟩, ⟨5, 5⟩]).previewAngles } } :=
  (applyHistory_keeps_attempt realMath _).1 _ rfl

/-- C12: in every state reached from a state with the initial history by a finite sequence of
records and replays, `attempt` is non-null exactly when `exists` is true, exactly when some
record has occurred; the stored attempt is the most recently recorded one; `suppressed` is
true exactly when some record has occurred and at least one replay followed the last one;
with no record the history is still the initial one. A record from any state yields
`{ exists: true, suppressed: false, attempt }`, recording the same attempt twice gives the
state of recording it once, and no transition sets a non-null `attempt` back to null. -/
theorem history_reachable (m : JSMath α) (s0 : AppState α)
    (h0 : s0.history = HistoryState.initial) (events : List (HistoryEvent α)) :
    (((historyRun m s0 events).history.attempt ≠ none ↔
        (historyRun m s0 events).history.exists_ = true) ∧
      ((historyRun m s0 events).history.exists_ = true ↔
        ∃ attempt, HistoryEvent.record attempt ∈ events)) ∧
    (∀ pre attempt post, events = pre ++ HistoryEvent.record attempt :: post →
      (∀ e ∈ post, e = HistoryEvent.replay) →
      (historyRun m s0 events).history.attempt = some attempt) ∧
    ((historyRun m s0 events).history.suppressed = true ↔ ReplayedSinceLastRecord events) ∧
    ((∀ e ∈ events, e = HistoryEvent.replay) →
      (historyRun m s0 events).history = HistoryState.initial) ∧
    (∀ (s : AppState α) (attempt : HistoryAttempt α),
      (updateHistoryPanel s attempt).history =
        { exists_ := true, suppressed := false, attempt := some attempt } ∧
      updateHistoryPanel (updateHistoryPanel s attempt) attempt = updateHistoryPanel s attempt) ∧
    (∀ (s : AppState α) (e : HistoryEvent α), s.history.attempt ≠ none →
      (historyStep m s e).history.attempt ≠ none) := by
  have hnone : s0.history.attempt = none := by rw [h0]; rfl
  have hall : (∀ e ∈ events, e = HistoryEvent.replay) →
      (historyRun m s0 events).history = HistoryState.initial := by
    intro hr
    rw [historyRun_replays_none m events hr s0 hnone, h0]
  have hrec : ∀ pre attempt post, events = pre ++ HistoryEvent.record attempt :: post →
      (∀ e ∈ post, e = HistoryEvent.replay) →
      (historyRun m s0 events).history =
        { exists_ := true, suppressed := !post.isEmpty, attempt := some attempt } := by
    intro pre attempt post he hp
    rw [he, historyRun_after_record m s0 pre post attempt hp]
  refine ⟨?_, ?_, ?_, hall, ?_, ?_⟩
  · rcases history_decompose events with hr | ⟨pre, attempt, post, he, hp⟩
    · rw [hall hr]
      refine ⟨by simp [HistoryState.initial], ?_⟩
      constructor
      · intro h
        simp [HistoryState.initial] at h
      · rintro ⟨attempt, hmem⟩
        exact absurd (hr _ hmem) (by simp)
    · rw [hrec pre attempt post he hp]
      refine ⟨by simp, ?_⟩
      exact ⟨fun _ => ⟨attempt, by rw [he]; simp⟩, fun _ => rfl⟩
  · intro pre attempt post he hp
    rw [hrec pre attempt post he hp]
  · constructor
    · intro hs
      rcases history_decompose events with hr | ⟨pre, attempt, post, he, hp⟩
      · rw [hall hr] at hs
        simp [HistoryState.initial] at hs
      · rw [hrec pre attempt post he hp] at hs
        refine ⟨pre, attempt, post, he, hp, ?_⟩
        intro hnil
        rw [hnil] at hs
        simp at hs
    · rintro ⟨pre, attempt, post, he, hp, hne⟩
      rw [hrec pre attempt post he hp]
      cases post with
      | nil => exact absurd rfl hne
      | cons e rest => rfl
  · intro s attempt
    exact ⟨rfl, rfl⟩
  · intro s e hs
    cases e with
    | record attempt => simp [historyStep, updateHistoryPanel]
    | replay =>
      rcases h : s.history.attempt with _ | attempt
      · exact absurd h hs
      · show (applyHistory m s).history.attempt ≠ none
        rw [applyHistory_history_some m s attempt h]
        simp

/-- C12 (witness): from the initial state, a record of an angle-mode attempt followed by a
replay leaves that attempt stored. -/
theorem history_reachable_witness :
    (initialState (⟨none, none, none, none, none, none, none, none, none⟩ : Inputs ℝ)).history =
      HistoryState.initial ∧
    (historyRun realMath (initialState ⟨none, none, none, none, none, none, none, none, none⟩)
      [HistoryEvent.record
          { mode := .angles,
            inputs := some ⟨some 60, some 60, none, none, none, none, none, none, none⟩,
            points := none,
            results := solveFromAngles realMath
              ⟨some 60, some 60, none, none, none, none, none, none, none⟩,
            previewAngles := some ⟨some 60, some 60, some 60⟩ },
        HistoryEvent.replay]).history.attempt =
      some
        { mode := .angles,
          inputs := some ⟨some 60, some 60, none, none, none, none, none, none, none⟩,
          points := none,
          results := solveFromAngles realMath
            ⟨some 60, some 60, none, none, none, none, none, none, none⟩,
          previewAngles := some ⟨some 60, some 60, some 60⟩ } :=
  ⟨rfl, (history_reachable realMath
      (initialState ⟨none, none, none, none, none, none, none, none, none⟩) rfl _).2.1
      [] _ [HistoryEvent.replay] rfl (by simp)⟩

end HistoryTheorems

end TriangleSolver
